import Mathlib

set_option autoImplicit false

/-!
# Player service: aggregate, repositories, unit of work, application service

A shallow embedding of the Go sources under `internal/`:

* `domain/player`   : `errors.go`, `enums.go`, `address.go`, `status_event.go`, `player.go`
* `repository/...`  : the SQL statements of the three repositories, read over tables
                      that are lists of rows
* `infra/postgres`  : `UnitOfWork.WithinTx`, the transaction carried by the context
* `usecase/player`  : `Service.CreatePlayer`, `Service.ChangeStatus`, `Service.GetPlayer`

Conventions.

* Go `string` is `String`; `time.Time` is an integer instant, `0` being `time.Time{}`.
* Go `int64` is an `Int` kept in range by `wrapInt64` at every arithmetic step;
  `int16` enum codes are `Int` codes that are only ever compared.
* `uuid.New()` and `clock.Now()` are not functions of the program state: the value they
  return is an argument of the definition that calls them.
* Library behaviour that is a table outside the repository (case mapping beyond ASCII,
  the time-zone database, the IP syntax) is a field of `Env`.
* A storage call can fail for reasons outside the program (`Faults`): the error handed back
  by `database/sql` at each call site is an argument.
-/

namespace PlayerService

/-! ## Scalars -/

/-- Go `time.Time`, as an instant; `0` is the zero value `time.Time`. -/
abbrev Time := Int

/-- Go `(time.Time).IsZero`. -/
def Time.IsZero (t : Time) : Bool := t == 0

/-- Lower bound of Go `int64`. -/
def minInt64 : Int := -(2 ^ 63)

/-- Upper bound of Go `int64`. -/
def maxInt64 : Int := 2 ^ 63 - 1

/-- Two-complement wrap-around of Go `int64` arithmetic. -/
def wrapInt64 (z : Int) : Int := (z + 2 ^ 63) % 2 ^ 64 - 2 ^ 63

/-- The values a Go `int64` can hold. -/
def isInt64 (z : Int) : Prop := minInt64 ≤ z ∧ z ≤ maxInt64

instance (z : Int) : Decidable (isInt64 z) := by unfold isInt64; exact inferInstance

/-- A `uuid.UUID`: its 128-bit value. -/
structure UUID where
  val : Nat
deriving DecidableEq, Repr

/-- One lower-case hexadecimal digit. -/
def hexDigit (n : Nat) : Char :=
  if n % 16 < 10 then Char.ofNat (48 + n % 16) else Char.ofNat (87 + n % 16)

/-- The `k` low hexadecimal digits of `n`, most significant first. -/
def hexDigits : Nat → Nat → List Char
  | 0, _ => []
  | k + 1, n => hexDigits k (n / 16) ++ [hexDigit n]

/-- Go `(uuid.UUID).String`: `xxxxxxxx-xxxx-xxxx-xxxx-xxxxxxxxxxxx`. -/
def UUID.String (u : UUID) : String :=
  let d := hexDigits 32 u.val
  String.mk (d.take 8 ++ [ '-' ] ++ (d.drop 8).take 4 ++ [ '-' ] ++ (d.drop 12).take 4
    ++ [ '-' ] ++ (d.drop 16).take 4 ++ [ '-' ] ++ d.drop 20)

/-- Go `net.IP`: a byte slice, `[]` standing for `nil`. -/
abbrev IP := List Nat

/-- Go `map[string]any` of the metadata column, kept as its JSON text. -/
abbrev Metadata := String

/-! ## Library behaviour that lives in tables outside the repository -/

/-- The parts of the Go standard library the program calls whose behaviour is data:
Unicode case tables, the zone database, IP parsing and printing. -/
structure Env where
  /-- Mapping of `unicode.ToLower` on runes above ASCII. -/
  lowerRune : Char → Char
  /-- Mapping of `unicode.ToUpper` on runes above ASCII. -/
  upperRune : Char → Char
  /-- Whether `time.LoadLocation` returns no error on this name. -/
  loadLocation : String → Bool
  /-- Go `net.ParseIP`; `[]` is the `nil` it returns on bad input. -/
  parseIP : String → IP
  /-- Go `(net.IP).String`. -/
  ipString : IP → String
  /-- Go `(time.Time).Format(time.RFC3339Nano)`. -/
  formatTime : Int → String
  /-- Text produced by `json.Marshal` for a map from keys to strings. -/
  jsonObject : List (String × String) → String

/-- An environment with identity case tables above ASCII, zones `UTC` and `Europe/Riga`,
dotted-quad parsing of `127.0.0.1` only, and a bare rendering of instants and of JSON
objects; enough to run the definitions. -/
def Env.sample : Env where
  lowerRune := fun c => c
  upperRune := fun c => c
  loadLocation := fun s => s == "UTC" || s == "Europe/Riga"
  parseIP := fun s => if s == "127.0.0.1" then [127, 0, 0, 1] else []
  ipString := fun ip => if ip == [127, 0, 0, 1] then "127.0.0.1" else "?"
  formatTime := fun t => toString t
  jsonObject := fun kvs => String.intercalate "," (kvs.map (fun kv => kv.1 ++ ":" ++ kv.2))

/-! ## Strings -/

/-- Go `unicode.IsSpace`. -/
def isSpace (c : Char) : Bool :=
  let n := c.toNat
  n == 9 || n == 10 || n == 11 || n == 12 || n == 13 || n == 32 || n == 0x85 || n == 0xA0
    || n == 0x1680 || (0x2000 ≤ n && n ≤ 0x200A) || n == 0x2028 || n == 0x2029
    || n == 0x202F || n == 0x205F || n == 0x3000

/-- Leading white space removed. -/
def trimLeft (l : List Char) : List Char := l.dropWhile isSpace

/-- Trailing white space removed. -/
def trimRight (l : List Char) : List Char := (l.reverse.dropWhile isSpace).reverse

/-- Go `strings.TrimSpace`. -/
def TrimSpace (s : String) : String := String.mk (trimRight (trimLeft s.data))

/-- Go `unicode.ToLower` on one rune: ASCII by arithmetic, the rest by table. -/
def toLowerRune (env : Env) (c : Char) : Char :=
  if c.toNat < 128 then
    (if 65 ≤ c.toNat ∧ c.toNat ≤ 90 then Char.ofNat (c.toNat + 32) else c)
  else env.lowerRune c

/-- Go `unicode.ToUpper` on one rune: ASCII by arithmetic, the rest by table. -/
def toUpperRune (env : Env) (c : Char) : Char :=
  if c.toNat < 128 then
    (if 97 ≤ c.toNat ∧ c.toNat ≤ 122 then Char.ofNat (c.toNat - 32) else c)
  else env.upperRune c

/-- Go `strings.ToLower`. -/
def ToLower (env : Env) (s : String) : String := String.mk (s.data.map (toLowerRune env))

/-- Go `strings.ToUpper`. -/
def ToUpper (env : Env) (s : String) : String := String.mk (s.data.map (toUpperRune env))

/-! ## Regular expressions (`regexp.MustCompile`), by derivatives -/

/-- Abstract syntax of the patterns used by the domain package. -/
inductive Regex where
  | none : Regex
  | eps : Regex
  | cls (p : Char → Bool) : Regex
  | cat (a b : Regex) : Regex
  | alt (a b : Regex) : Regex
  | star (a : Regex) : Regex

/-- Whether the pattern matches the empty string. -/
def Regex.nullable : Regex → Bool
  | .none => false
  | .eps => true
  | .cls _ => false
  | .cat a b => a.nullable && b.nullable
  | .alt a b => a.nullable || b.nullable
  | .star _ => true

/-- Concatenation that drops a dead or empty left factor. -/
def Regex.mkCat : Regex → Regex → Regex
  | .none, _ => .none
  | .eps, b => b
  | a, b => .cat a b

/-- Alternation that drops a dead branch. -/
def Regex.mkAlt : Regex → Regex → Regex
  | .none, b => b
  | a, .none => a
  | a, b => .alt a b

/-- Brzozowski derivative with respect to one rune. -/
def Regex.deriv (c : Char) : Regex → Regex
  | .none => .none
  | .eps => .none
  | .cls p => if p c then .eps else .none
  | .cat a b =>
    if a.nullable then Regex.mkAlt (Regex.mkCat (a.deriv c) b) (b.deriv c)
    else Regex.mkCat (a.deriv c) b
  | .alt a b => Regex.mkAlt (a.deriv c) (b.deriv c)
  | .star a => Regex.mkCat (a.deriv c) (.star a)

/-- Whether the whole list of runes matches. -/
def Regex.matchList (r : Regex) : List Char → Bool
  | [] => r.nullable
  | c :: cs => (r.deriv c).matchList cs

/-- Go `(*Regexp).MatchString` for a pattern written between `^` and `$`. -/
def Regex.MatchString (r : Regex) (s : String) : Bool := r.matchList s.data

/-- One or more: `a+`. -/
def Regex.plus (a : Regex) : Regex := .cat a (.star a)

/-- Zero or one: `a?`. -/
def Regex.opt (a : Regex) : Regex := .alt a .eps

/-- Exactly `n` times: `a{n}`. -/
def Regex.times (a : Regex) : Nat → Regex
  | 0 => .eps
  | n + 1 => .cat a (Regex.times a n)

/-- At most `n` times: `a{0,n}`. -/
def Regex.upTo (a : Regex) : Nat → Regex
  | 0 => .eps
  | n + 1 => Regex.opt (.cat a (Regex.upTo a n))

/-- The Perl class `\s` of Go regular expressions: tab, newline, form feed, return, space. -/
def reSpace (c : Char) : Bool :=
  c == '\t' || c == '\n' || c.toNat == 12 || c == '\r' || c == ' '

/-- The class `[^\s@]`. -/
def reNotSpaceAt (c : Char) : Bool := !(reSpace c || c == '@')

/-- The class `[0-9]`. -/
def reDigit (c : Char) : Bool := 48 ≤ c.toNat && c.toNat ≤ 57

/-- The class `[A-Z]`. -/
def reUpperAZ (c : Char) : Bool := 65 ≤ c.toNat && c.toNat ≤ 90

/-- The class `[a-z]`. -/
def reLowerAZ (c : Char) : Bool := 97 ≤ c.toNat && c.toNat ≤ 122

/-- Pattern `^[^\s@]+@[^\s@]+\.[^\s@]+$` of `player.go`. -/
def reEmail : Regex :=
  .cat (Regex.plus (.cls reNotSpaceAt))
    (.cat (.cls (fun c => c == '@'))
      (.cat (Regex.plus (.cls reNotSpaceAt))
        (.cat (.cls (fun c => c == '.')) (Regex.plus (.cls reNotSpaceAt)))))

/-- Pattern `^\+?[0-9]{6,20}$` of `player.go`. -/
def rePhone : Regex :=
  .cat (Regex.opt (.cls (fun c => c == '+')))
    (.cat (Regex.times (.cls reDigit) 6) (Regex.upTo (.cls reDigit) 14))

/-- Pattern `^[A-Z]{2}$` of `address.go`. -/
def reCountry : Regex := Regex.times (.cls reUpperAZ) 2

/-- Pattern `^[a-z]{2}([_-][A-Z]{2})?$` of `address.go`. -/
def reLocale : Regex :=
  .cat (Regex.times (.cls reLowerAZ) 2)
    (Regex.opt (.cat (.cls (fun c => c == '_' || c == '-')) (Regex.times (.cls reUpperAZ) 2)))

/-! ## `errors.go` -/

/-- The package-level error values of `errors.go`. -/
inductive ErrKind where
  | ErrInvalidEmail
  | ErrInvalidPhone
  | ErrInvalidStatus
  | ErrInvalidGender
  | ErrInvalidCountryCode
  | ErrInvalidTimeZone
  | ErrInvalidLocale
  | ErrNotFound
  | ErrConflict
  | ErrForbidden
  | ErrValidation
deriving DecidableEq, Repr

/-- An error handed back by `database/sql` or the driver: its SQLSTATE or text. -/
structure StorageErr where
  code : String
deriving DecidableEq, Repr

/-- SQLSTATE `23505`, `unique_violation`. -/
def duplicateKey : StorageErr := ⟨"23505"⟩

/-- A Go `error` value as the program can produce it. -/
inductive Err where
  /-- One of the package-level values itself. -/
  | sentinel (k : ErrKind) : Err
  /-- The value `fmt.Errorf("%w: ...", k, ...)`, with the text after the colon. -/
  | wrap (k : ErrKind) (detail : String) : Err
  /-- An error of the storage layer, passed on as it came. -/
  | storage (e : StorageErr) : Err
  /-- An error of `json.Marshal`. -/
  | marshal (detail : String) : Err
deriving DecidableEq, Repr

/-- Go `errors.Is(err, k)` for a package-level value `k`. -/
def Err.Is : Err → ErrKind → Bool
  | .sentinel k, t => k == t
  | .wrap k _, t => k == t
  | .storage _, _ => false
  | .marshal _, _ => false

open ErrKind

/-! ## `enums.go` -/

/-- Go `type Status int16`. -/
structure Status where
  code : Int
deriving DecidableEq, Repr

def StatusUnknown : Status := ⟨0⟩
def StatusActive : Status := ⟨1⟩
def StatusBlocked : Status := ⟨2⟩
def StatusFrozen : Status := ⟨3⟩
def StatusClosed : Status := ⟨4⟩

/-- Go `(Status).String`. -/
def Status.String (s : Status) : String :=
  if s = StatusActive then "active"
  else if s = StatusBlocked then "blocked"
  else if s = StatusFrozen then "frozen"
  else if s = StatusClosed then "closed"
  else "unknown"

/-- Go `ParseStatus`. -/
def ParseStatus (v : String) : Status × Option Err :=
  if v = "active" then (StatusActive, none)
  else if v = "blocked" then (StatusBlocked, none)
  else if v = "frozen" then (StatusFrozen, none)
  else if v = "closed" then (StatusClosed, none)
  else (StatusUnknown, some (.wrap ErrInvalidStatus v))

/-- Go `type Gender int16`. -/
structure Gender where
  code : Int
deriving DecidableEq, Repr

def GenderNone : Gender := ⟨0⟩
def GenderMale : Gender := ⟨1⟩
def GenderFemale : Gender := ⟨2⟩
def GenderOther : Gender := ⟨3⟩

/-- Go `ParseGender`. -/
def ParseGender (v : String) : Gender × Option Err :=
  if v = "none" then (GenderNone, none)
  else if v = "male" then (GenderMale, none)
  else if v = "female" then (GenderFemale, none)
  else if v = "other" then (GenderOther, none)
  else (GenderNone, some (.wrap ErrInvalidGender v))

/-- Go `GenderList`. -/
def GenderList : List String := ["none", "male", "female", "other"]

/-- Go `StatusList`. -/
def StatusList : List String := ["active", "blocked", "frozen", "closed"]

/-- Go `type ActorType int16`. -/
structure ActorType where
  code : Int
deriving DecidableEq, Repr

def ActorPlayer : ActorType := ⟨1⟩
def ActorAdmin : ActorType := ⟨2⟩
def ActorSystem : ActorType := ⟨3⟩

/-- Go `(ActorType).String`. -/
def ActorType.String (a : ActorType) : String :=
  if a = ActorPlayer then "player"
  else if a = ActorAdmin then "administrator"
  else "system"

/-! ## `address.go` -/

/-- Go `type Address struct`. -/
structure Address where
  CountryCode : String
  Locale : String
  TimeZone : String
deriving DecidableEq, Repr

/-- Go `(Address).Validate`; `none` is the `nil` error. -/
def Address.Validate (env : Env) (a : Address) : Option Err :=
  if a.CountryCode ≠ "" ∧ ¬ reCountry.MatchString a.CountryCode then
    some (.wrap ErrInvalidCountryCode a.CountryCode)
  else if a.Locale ≠ "" ∧ ¬ reLocale.MatchString a.Locale then
    some (.wrap ErrInvalidLocale a.Locale)
  else if a.TimeZone ≠ "" ∧ ¬ env.loadLocation a.TimeZone then
    some (.wrap ErrInvalidTimeZone a.TimeZone)
  else none

/-- Go `NewAddress`. -/
def NewAddress (env : Env) (countryCode locale timeZone : String) : Except Err Address :=
  let a : Address := { CountryCode := countryCode, Locale := locale, TimeZone := timeZone }
  match a.Validate env with
  | some err => .error err
  | none => .ok a

/-! ## `status_event.go` -/

/-- Go `type PlayerStatusEvent struct`. -/
structure PlayerStatusEvent where
  ID : UUID
  PlayerID : UUID
  From : Status
  To : Status
  Reason : String
  ActorType : ActorType
  CreatedAt : Time
deriving DecidableEq, Repr

/-- Go `NewPlayerStatusEvent`; `id` is the value of `uuid.New()`. -/
def NewPlayerStatusEvent (id : UUID) (playerID : UUID) (src dst : Status) (reason : String)
    (actor : ActorType) (sentAt : Time) : PlayerStatusEvent :=
  { ID := id, PlayerID := playerID, From := src, To := dst, Reason := reason,
    ActorType := actor, CreatedAt := sentAt }

/-! ## `player.go` -/

/-- Go `type Player struct`. -/
structure Player where
  ID : UUID
  Email : String
  Phone : String
  Status : Status
  StatusReason : String
  Address : Address
  FirstName : String
  LastName : String
  BirthDate : Time
  Gender : Gender
  RegistrationIP : IP
  RegisteredAt : Time
  LastLoginAt : Time
  Metadata : Metadata
  Version : Int
  CreatedAt : Time
  UpdatedAt : Time
deriving DecidableEq, Repr

/-- Go `type CreateParams struct`. -/
structure CreateParams where
  Email : String
  Phone : String
  FirstName : String
  LastName : String
  BirthDate : Time
  Gender : Gender
  Address : Address
  RegistrationIP : IP
  Metadata : Metadata
  RegisteredAt : Time
deriving DecidableEq, Repr

/-- Go `(*Player).Validate`; `none` is the `nil` error. -/
def Player.Validate (env : Env) (p : Player) : Option Err :=
  if p.Email = "" ∨ ¬ reEmail.MatchString p.Email then
    some (.wrap ErrInvalidEmail p.Email)
  else if p.Phone ≠ "" ∧ ¬ rePhone.MatchString p.Phone then
    some (.wrap ErrInvalidPhone p.Phone)
  else if p.Status = StatusUnknown then
    some (.sentinel ErrInvalidStatus)
  else
    match p.Address.Validate env with
    | some err => some err
    | none => none

/-- Go `NewPlayer`; `id` is the value of `uuid.New()`. -/
def NewPlayer (env : Env) (id : UUID) (p : CreateParams) (now : Time) : Except Err Player :=
  let email := TrimSpace (ToLower env p.Email)
  if email = "" ∨ ¬ reEmail.MatchString email then
    .error (.wrap ErrInvalidEmail p.Email)
  else if p.Phone ≠ "" ∧ ¬ rePhone.MatchString p.Phone then
    .error (.wrap ErrInvalidPhone p.Phone)
  else
    match p.Address.Validate env with
    | some err => .error err
    | none =>
      let pl : Player :=
        { ID := id
          Email := email
          Phone := p.Phone
          Status := StatusActive
          StatusReason := ""
          Address := p.Address
          FirstName := p.FirstName
          LastName := p.LastName
          BirthDate := p.BirthDate
          Gender := p.Gender
          RegistrationIP := p.RegistrationIP
          RegisteredAt := p.RegisteredAt
          LastLoginAt := 0
          Metadata := p.Metadata
          Version := 1
          CreatedAt := now
          UpdatedAt := now }
      match pl.Validate env with
      | some err => .error err
      | none => .ok pl

/-- Go `(*Player).ChangeStatus`. The receiver is a pointer: the first component is the
player after the call (untouched on every error return), the second what is returned.
`evID` is the value of `uuid.New()` inside `NewPlayerStatusEvent`. -/
def Player.ChangeStatus (p : Player) (evID : UUID) (dst : PlayerService.Status) (reason : String)
    (actor : ActorType) (now : Time) : Player × Except Err PlayerStatusEvent :=
  if dst = StatusUnknown then
    (p, .error (.sentinel ErrInvalidStatus))
  else if dst = p.Status then
    (p, .error (.wrap ErrValidation ("status already " ++ dst.String)))
  else if TrimSpace reason = "" then
    (p, .error (.wrap ErrValidation "status_reason required"))
  else
    let src := p.Status
    let p1 : Player :=
      { p with Status := dst, StatusReason := reason, Version := wrapInt64 (p.Version + 1),
               UpdatedAt := now }
    (p1, .ok (NewPlayerStatusEvent evID p1.ID src dst reason actor now))

/-- Go `(*Player).MarkLogin`. -/
def Player.MarkLogin (p : Player) (loginAt : Time) : Player :=
  { p with LastLoginAt := loginAt, Version := wrapInt64 (p.Version + 1), UpdatedAt := loginAt }

/-! ## Tables -/

/-- A row of table `players`, column by column as `Repo.Create` writes it. -/
structure PlayerRow where
  id : UUID
  email : String
  phone : Option String
  status : Int
  status_reason : Option String
  country_code : Option String
  locale : Option String
  time_zone : Option String
  first_name : Option String
  last_name : Option String
  birth_date : Option Time
  gender : Int
  registration_ip : Option String
  registered_at : Option Time
  last_login_at : Option Time
  metadata : String
  version : Int
  created_at : Time
  updated_at : Time
deriving DecidableEq, Repr

/-- A row of table `player_status_events`. -/
structure EventRow where
  id : UUID
  player_id : UUID
  from_status : Int
  to_status : Int
  reason : String
  actor_type : Int
  created_at : Time
deriving DecidableEq, Repr

/-- Go `type OutboxMessage struct` of `outbox.go`. -/
structure OutboxMessage where
  ID : UUID
  Aggregate : String
  AggregateID : UUID
  /-- Go field `Type`. -/
  Typ : String
  Key : String
  Payload : String
  CreatedAt : Time
deriving DecidableEq, Repr

/-- A row of table `outbox`. -/
structure OutboxRow where
  id : UUID
  aggregate : String
  aggregate_id : UUID
  type : String
  key : String
  payload : String
  created_at : Time
  published_at : Option Time
deriving DecidableEq, Repr

/-- The three tables. -/
structure DB where
  players : List PlayerRow
  events : List EventRow
  outbox : List OutboxRow
deriving DecidableEq, Repr

/-- A call made to a collaborator: the unit of work's transaction or a repository. -/
inductive Call where
  | BeginTx
  | Commit
  | Rollback
  | GetByID (id : UUID)
  | GetByEmail (email : String)
  | Create (id : UUID)
  | Update (id : UUID)
  | Append (id : UUID)
  | Enqueue (id : UUID)
deriving DecidableEq, Repr

/-- The storage as the program meets it: what is committed, the pending state of the
transaction opened by the unit of work (if one is open), and the calls made so far,
oldest first. The call list is bookkeeping only: no definition reads it. -/
structure World where
  committed : DB
  pending : Option DB
  calls : List Call
deriving DecidableEq, Repr

/-- Appends one call to the record. -/
def World.note (w : World) (c : Call) : World := { w with calls := w.calls ++ [c] }

/-- The error `database/sql` hands back at each call site when the call fails for a reason
outside the program (`none`: the call goes through). -/
structure Faults where
  beginTx : Option StorageErr
  commit : Option StorageErr
  rollback : Option StorageErr
  selectPlayer : Option StorageErr
  selectEmail : Option StorageErr
  insertPlayer : Option StorageErr
  updatePlayer : Option StorageErr
  insertEvent : Option StorageErr
  insertOutbox : Option StorageErr
  marshal : Option String
deriving DecidableEq, Repr

/-- No call fails for a reason outside the program. -/
def Faults.none : Faults :=
  { beginTx := Option.none, commit := Option.none, rollback := Option.none,
    selectPlayer := Option.none, selectEmail := Option.none, insertPlayer := Option.none,
    updatePlayer := Option.none, insertEvent := Option.none, insertOutbox := Option.none,
    marshal := Option.none }

/-- Go `sql.ErrTxDone`: a statement on a transaction that is no longer open. -/
def txDone : StorageErr := ⟨"sql: transaction has already been committed or rolled back"⟩

/-! ## `txctx.go`, `executor.go` -/

/-- A `context.Context`, as far as the program looks into it: whether `withTx` has put
the transaction in it. -/
inductive Ctx where
  | background
  | withTx
deriving DecidableEq, Repr

/-- Go `TxFromContext`: whether the context carries a transaction. -/
def TxFromContext (ctx : Ctx) : Bool :=
  match ctx with
  | .withTx => true
  | .background => false

/-- The two implementations of `executor`: `*sql.Tx` and `*sql.DB`. -/
inductive Executor where
  | tx
  | db
deriving DecidableEq, Repr

/-- Go `pickExecutor`. -/
def pickExecutor (ctx : Ctx) : Executor :=
  if TxFromContext ctx then .tx else .db

/-- The tables a statement run through the executor reads; `none` when the executor is a
transaction that is not open. -/
def World.view (w : World) (ex : Executor) : Option DB :=
  match ex with
  | .tx => w.pending
  | .db => some w.committed

/-- The tables after a statement run through the executor has written: through the
transaction the write is pending, through the pool it is committed at once. -/
def World.put (w : World) (ex : Executor) (d : DB) : World :=
  match ex with
  | .tx => { w with pending := some d }
  | .db => { w with committed := d }

/-! ## `repository/player/postgres/repo.go` -/

/-- Go `nullStr`. -/
def nullStr (s : String) : Option String := if s = "" then Option.none else some s

/-- Go `nullTime`. -/
def nullTime (t : Time) : Option Time := if Time.IsZero t then Option.none else some t

/-- Go `nullIP`. -/
def nullIP (env : Env) (ip : IP) : Option String :=
  if ip.length = 0 then Option.none else some (env.ipString ip)

/-- The player a scanned row of `players` becomes in `Repo.GetByID`. -/
def rowToPlayer (env : Env) (r : PlayerRow) : Player :=
  { ID := r.id
    Email := r.email
    Phone := r.phone.getD ""
    Status := ⟨r.status⟩
    StatusReason := r.status_reason.getD ""
    Address := { CountryCode := r.country_code.getD "", Locale := r.locale.getD "",
                 TimeZone := r.time_zone.getD "" }
    FirstName := r.first_name.getD ""
    LastName := r.last_name.getD ""
    BirthDate := r.birth_date.getD 0
    Gender := ⟨r.gender⟩
    RegistrationIP :=
      match r.registration_ip with
      | some s => if s ≠ "" then env.parseIP s else []
      | Option.none => []
    RegisteredAt := r.registered_at.getD 0
    LastLoginAt := r.last_login_at.getD 0
    Metadata := if r.metadata.length > 0 then r.metadata else "\x7b\x7d"
    Version := r.version
    CreatedAt := r.created_at
    UpdatedAt := r.updated_at }

/-- The row `Repo.Create` inserts for a player: the `VALUES` list of its statement. -/
def playerToRow (env : Env) (p : Player) : PlayerRow :=
  { id := p.ID
    email := p.Email
    phone := nullStr p.Phone
    status := p.Status.code
    status_reason := nullStr p.StatusReason
    country_code := nullStr p.Address.CountryCode
    locale := nullStr p.Address.Locale
    time_zone := nullStr p.Address.TimeZone
    first_name := nullStr p.FirstName
    last_name := nullStr p.LastName
    birth_date := nullTime p.BirthDate
    gender := p.Gender.code
    registration_ip := nullIP env p.RegistrationIP
    registered_at := nullTime p.RegisteredAt
    last_login_at := nullTime p.LastLoginAt
    metadata := p.Metadata
    version := p.Version
    created_at := p.CreatedAt
    updated_at := p.UpdatedAt }

/-- The `SET` list of the statement of `Repo.Update` applied to one row: every column
but `id`, `email` and `created_at` is overwritten from the player. -/
def setColumns (env : Env) (p : Player) (r : PlayerRow) : PlayerRow :=
  { r with
    phone := nullStr p.Phone
    status := p.Status.code
    status_reason := nullStr p.StatusReason
    country_code := nullStr p.Address.CountryCode
    locale := nullStr p.Address.Locale
    time_zone := nullStr p.Address.TimeZone
    first_name := nullStr p.FirstName
    last_name := nullStr p.LastName
    birth_date := nullTime p.BirthDate
    gender := p.Gender.code
    registration_ip := nullIP env p.RegistrationIP
    registered_at := nullTime p.RegisteredAt
    last_login_at := nullTime p.LastLoginAt
    metadata := p.Metadata
    version := p.Version
    updated_at := p.UpdatedAt }

/-- The `WHERE id=$1 AND version=$18` of `Repo.Update`, `$18` being `p.Version-1`. -/
def updateMatches (p : Player) (r : PlayerRow) : Bool :=
  r.id == p.ID && r.version == wrapInt64 (p.Version - 1)

/-- The `UPDATE players SET ... WHERE ...` of `Repo.Update` on the table. -/
def updateRows (env : Env) (p : Player) (rows : List PlayerRow) : List PlayerRow :=
  rows.map (fun r => if updateMatches p r then setColumns env p r else r)

/-- The number `RowsAffected` reports for that statement. -/
def rowsAffected (p : Player) (rows : List PlayerRow) : Nat :=
  (rows.filter (updateMatches p)).length

/-- Modelled from the spec: the unique keys of table `players` (`id` and `email`), whose
schema is not among the sources; an `INSERT` that repeats either is refused. -/
def violatesUnique (row : PlayerRow) (rows : List PlayerRow) : Bool :=
  rows.any (fun r => r.id == row.id || r.email == row.email)

/-- Go `(*Repo).GetByID`. -/
def Repo.GetByID (env : Env) (f : Faults) (ctx : Ctx) (id : UUID) (w : World) :
    Except Err Player × World :=
  let w1 := w.note (.GetByID id)
  let ex := pickExecutor ctx
  match f.selectPlayer with
  | some e => (.error (.storage e), w1)
  | Option.none =>
    match w1.view ex with
    | Option.none => (.error (.storage txDone), w1)
    | some d =>
      match d.players.find? (fun r => r.id == id) with
      | Option.none => (.error (.sentinel ErrNotFound), w1)
      | some r => (.ok (rowToPlayer env r), w1)

/-- Go `(*Repo).GetByEmail`. -/
def Repo.GetByEmail (env : Env) (f : Faults) (ctx : Ctx) (email : String) (w : World) :
    Except Err Player × World :=
  let w1 := w.note (.GetByEmail email)
  let ex := pickExecutor ctx
  match f.selectEmail with
  | some e => (.error (.storage e), w1)
  | Option.none =>
    match w1.view ex with
    | Option.none => (.error (.storage txDone), w1)
    | some d =>
      match d.players.find? (fun r => r.email == email) with
      | Option.none => (.error (.sentinel ErrNotFound), w1)
      | some r => Repo.GetByID env f ctx r.id w1

/-- Go `(*Repo).Create`; `none` is the `nil` error. -/
def Repo.Create (env : Env) (f : Faults) (ctx : Ctx) (p : Player) (w : World) :
    Option Err × World :=
  let w1 := w.note (.Create p.ID)
  let ex := pickExecutor ctx
  match f.insertPlayer with
  | some e => (some (.storage e), w1)
  | Option.none =>
    match w1.view ex with
    | Option.none => (some (.storage txDone), w1)
    | some d =>
      if violatesUnique (playerToRow env p) d.players then
        (some (.storage duplicateKey), w1)
      else
        (Option.none, w1.put ex { d with players := d.players ++ [playerToRow env p] })

/-- Go `(*Repo).Update`; `none` is the `nil` error. -/
def Repo.Update (env : Env) (f : Faults) (ctx : Ctx) (p : Player) (w : World) :
    Option Err × World :=
  let w1 := w.note (.Update p.ID)
  let ex := pickExecutor ctx
  match f.updatePlayer with
  | some e => (some (.storage e), w1)
  | Option.none =>
    match w1.view ex with
    | Option.none => (some (.storage txDone), w1)
    | some d =>
      let w2 := w1.put ex { d with players := updateRows env p d.players }
      let aff := rowsAffected p d.players
      if aff = 0 then (some (.sentinel ErrConflict), w2) else (Option.none, w2)

/-! ## `repository/player/postgres/events_repo.go` -/

/-- The row `EventsRepo.Append` inserts. -/
def eventToRow (ev : PlayerStatusEvent) : EventRow :=
  { id := ev.ID, player_id := ev.PlayerID, from_status := ev.From.code,
    to_status := ev.To.code, reason := ev.Reason, actor_type := ev.ActorType.code,
    created_at := ev.CreatedAt }

/-- Go `(*EventsRepo).Append`; `none` is the `nil` error. -/
def EventsRepo.Append (f : Faults) (ctx : Ctx) (ev : PlayerStatusEvent) (w : World) :
    Option Err × World :=
  let w1 := w.note (.Append ev.ID)
  let ex := pickExecutor ctx
  match f.insertEvent with
  | some e => (some (.storage e), w1)
  | Option.none =>
    match w1.view ex with
    | Option.none => (some (.storage txDone), w1)
    | some d => (Option.none, w1.put ex { d with events := d.events ++ [eventToRow ev] })

/-! ## `repository/outbox/postgres/repo.go`, `usecase/player/outbox.go` -/

/-- The row `Enqueue` inserts: `published_at` is `NULL`. -/
def messageToRow (m : OutboxMessage) : OutboxRow :=
  { id := m.ID, aggregate := m.Aggregate, aggregate_id := m.AggregateID, type := m.Typ,
    key := m.Key, payload := m.Payload, created_at := m.CreatedAt,
    published_at := Option.none }

/-- Go `(*Repo).Enqueue` of package `outboxpg`; `none` is the `nil` error. -/
def OutboxRepo.Enqueue (f : Faults) (ctx : Ctx) (m : OutboxMessage) (w : World) :
    Option Err × World :=
  let w1 := w.note (.Enqueue m.ID)
  let ex := pickExecutor ctx
  match f.insertOutbox with
  | some e => (some (.storage e), w1)
  | Option.none =>
    match w1.view ex with
    | Option.none => (some (.storage txDone), w1)
    | some d => (Option.none, w1.put ex { d with outbox := d.outbox ++ [messageToRow m] })

/-- Go `NewOutboxMessage`; `id` is the value of `uuid.New()`, the payload a map from keys
to strings. -/
def NewOutboxMessage (env : Env) (f : Faults) (id : UUID) (aggregate : String)
    (aggregateID : UUID) (typ key : String) (payload : List (String × String))
    (sentAt : Time) : Except Err OutboxMessage :=
  match f.marshal with
  | some e => .error (.marshal e)
  | Option.none =>
    .ok { ID := id, Aggregate := aggregate, AggregateID := aggregateID, Typ := typ,
          Key := key, Payload := env.jsonObject payload, CreatedAt := sentAt }

/-! ## `infra/postgres/uow.go` -/

/-- Go `(*sql.DB).BeginTx`: on success a transaction is open on the committed tables. -/
def BeginTx (f : Faults) (w : World) : Option Err × World :=
  let w1 := w.note .BeginTx
  match f.beginTx with
  | some e => (some (.storage e), w1)
  | Option.none => (Option.none, { w1 with pending := some w1.committed })

/-- Go `(*sql.Tx).Rollback`: the pending state is dropped, whatever is reported. -/
def Rollback (f : Faults) (w : World) : Option Err × World :=
  let w1 := w.note .Rollback
  (f.rollback.map Err.storage, { w1 with pending := Option.none })

/-- Go `(*sql.Tx).Commit`: the pending state becomes the committed one, unless the commit
fails, in which case it is dropped. -/
def Commit (f : Faults) (w : World) : Option Err × World :=
  let w1 := w.note .Commit
  match f.commit with
  | some e => (some (.storage e), { w1 with pending := Option.none })
  | Option.none =>
    match w1.pending with
    | Option.none => (some (.storage txDone), w1)
    | some d => (Option.none, { w1 with committed := d, pending := Option.none })

/-- Go `(*UnitOfWork).WithinTx`. The function `fn` returns, next to its error, the value
its closure leaves in the variables it captured. -/
def UnitOfWork.WithinTx {α : Type} (f : Faults) (fn : Ctx → World → Except Err α × World)
    (w : World) : Except Err α × World :=
  match BeginTx f w with
  | (some err, w1) => (.error err, w1)
  | (Option.none, w1) =>
    let ctxTx := Ctx.withTx
    match fn ctxTx w1 with
    | (.error err, w2) =>
      let (_, w3) := Rollback f w2
      (.error err, w3)
    | (.ok a, w2) =>
      match Commit f w2 with
      | (some err, w3) => (.error err, w3)
      | (Option.none, w3) => (.ok a, w3)

/-! ## `usecase/player/service.go` -/

/-- Go `type Service struct`: the collaborators are the ones above; the outbox is optional. -/
structure Service where
  /-- Whether `s.outbox != nil`. -/
  outbox : Bool
deriving DecidableEq, Repr

/-- Go `type CreatePlayerCmd struct`. -/
structure CreatePlayerCmd where
  Email : String
  Phone : String
  FirstName : String
  LastName : String
  BirthDate : Time
  Gender : String
  CountryCode : String
  Locale : String
  TimeZone : String
  RegistrationIP : String
  Metadata : Metadata
  RegisteredAt : Time
deriving DecidableEq, Repr

/-- Go `type ChangeStatusCmd struct`. -/
structure ChangeStatusCmd where
  PlayerID : UUID
  ToStatus : String
  Reason : String
  Actor : ActorType
deriving DecidableEq, Repr

/-- The part of `Service.CreatePlayer` before the unit of work: address, gender, IP and
aggregate construction. `now` is `s.clock.Now()`, `id` the value of `uuid.New()`. -/
def Service.buildPlayer (env : Env) (now : Time) (id : UUID) (cmd : CreatePlayerCmd) :
    Except Err Player :=
  match NewAddress env (ToUpper env cmd.CountryCode) cmd.Locale cmd.TimeZone with
  | .error err => .error err
  | .ok addr =>
    match ParseGender (ToLower env (TrimSpace cmd.Gender)) with
    | (_, some err) => .error err
    | (g, Option.none) =>
      let ipRes : Except Err IP :=
        if TrimSpace cmd.RegistrationIP ≠ "" then
          (let ip := env.parseIP (TrimSpace cmd.RegistrationIP)
           if ip = [] then .error (.sentinel ErrValidation) else .ok ip)
        else .ok []
      match ipRes with
      | .error err => .error err
      | .ok ip =>
        NewPlayer env id
          { Email := cmd.Email, Phone := cmd.Phone, FirstName := cmd.FirstName,
            LastName := cmd.LastName, BirthDate := cmd.BirthDate, Gender := g,
            Address := addr, RegistrationIP := ip, Metadata := cmd.Metadata,
            RegisteredAt := cmd.RegisteredAt } now

/-- The function `Service.CreatePlayer` hands to the unit of work. -/
def Service.createTx (env : Env) (f : Faults) (p : Player) (ctx : Ctx) (w : World) :
    Except Err Unit × World :=
  match Repo.GetByEmail env f ctx p.Email w with
  | (.error err, w1) =>
    if ¬ err.Is ErrNotFound then (.error err, w1)
    else
      match Repo.Create env f ctx p w1 with
      | (some e, w2) => (.error e, w2)
      | (Option.none, w2) => (.ok (), w2)
  | (.ok _, w1) => (.error (.sentinel ErrConflict), w1)

/-- Go `(*Service).CreatePlayer`. -/
def Service.CreatePlayer (env : Env) (_s : Service) (f : Faults) (now : Time) (id : UUID)
    (cmd : CreatePlayerCmd) (w : World) : Except Err Player × World :=
  match Service.buildPlayer env now id cmd with
  | .error err => (.error err, w)
  | .ok p =>
    match UnitOfWork.WithinTx f (Service.createTx env f p) w with
    | (.error err, w1) => (.error err, w1)
    | (.ok _, w1) => (.ok p, w1)

/-- The payload map built in `Service.ChangeStatus`, in the key order of `json.Marshal`. -/
def statusPayload (env : Env) (event : PlayerStatusEvent) : List (String × String) :=
  [ ("actor_type", event.ActorType.String),
    ("created_at", env.formatTime event.CreatedAt),
    ("from_status", event.From.String),
    ("id", event.ID.String),
    ("player_id", event.PlayerID.String),
    ("reason", event.Reason),
    ("to_status", event.To.String) ]

/-- The function `Service.ChangeStatus` hands to the unit of work. -/
def Service.changeStatusTx (env : Env) (s : Service) (f : Faults) (now : Time)
    (evID msgID : UUID) (dst : Status) (cmd : ChangeStatusCmd) (ctx : Ctx) (w : World) :
    Except Err (Player × PlayerStatusEvent) × World :=
  match Repo.GetByID env f ctx cmd.PlayerID w with
  | (.error err, w1) => (.error err, w1)
  | (.ok p0, w1) =>
    match p0.ChangeStatus evID dst cmd.Reason cmd.Actor now with
    | (_, .error err) => (.error err, w1)
    | (p, .ok event) =>
      match Repo.Update env f ctx p w1 with
      | (some err, w2) => (.error err, w2)
      | (Option.none, w2) =>
        match EventsRepo.Append f ctx event w2 with
        | (some err, w3) => (.error err, w3)
        | (Option.none, w3) =>
          if s.outbox then
            match NewOutboxMessage env f msgID "player" p.ID "player.status.changed"
                p.ID.String (statusPayload env event) now with
            | .error err => (.error err, w3)
            | .ok msg =>
              match OutboxRepo.Enqueue f ctx msg w3 with
              | (some err, w4) => (.error err, w4)
              | (Option.none, w4) => (.ok (p, event), w4)
          else (.ok (p, event), w3)

/-- Go `(*Service).ChangeStatus`. `now` is `s.clock.Now()`; `evID` and `msgID` are the
values of `uuid.New()` for the event and for the outbox message. -/
def Service.ChangeStatus (env : Env) (s : Service) (f : Faults) (now : Time)
    (evID msgID : UUID) (cmd : ChangeStatusCmd) (w : World) :
    Except Err (Player × PlayerStatusEvent) × World :=
  match ParseStatus (ToLower env (TrimSpace cmd.ToStatus)) with
  | (_, some err) => (.error err, w)
  | (dst, Option.none) =>
    match UnitOfWork.WithinTx f (Service.changeStatusTx env s f now evID msgID dst cmd) w with
    | (.error err, w1) => (.error err, w1)
    | (.ok r, w1) => (.ok r, w1)

/-- Go `(*Service).GetPlayer`. -/
def Service.GetPlayer (env : Env) (_s : Service) (f : Faults) (ctx : Ctx) (id : UUID)
    (w : World) : Except Err Player × World :=
  Repo.GetByID env f ctx id w


/-! ## Sample values -/


/-- An active player at version 1. -/
def samplePlayer : Player :=
  { ID := ⟨7⟩, Email := "a@b.com", Phone := "", Status := StatusActive, StatusReason := "",
    Address := { CountryCode := "", Locale := "", TimeZone := "" }, FirstName := "Ann",
    LastName := "Lee", BirthDate := 0, Gender := GenderNone, RegistrationIP := [],
    RegisteredAt := 0, LastLoginAt := 0, Metadata := "\x7b\x7d", Version := 1, CreatedAt := 100,
    UpdatedAt := 100 }

/-- A player value whose status is the zero value of the type. -/
def unknownPlayer : Player := { samplePlayer with Status := StatusUnknown }

/-- Creation parameters with the email written in capitals and followed by a blank. -/
def sampleParams : CreateParams :=
  { Email := "A@B.com ", Phone := "", FirstName := "Ann", LastName := "Lee", BirthDate := 0,
    Gender := GenderNone, Address := { CountryCode := "", Locale := "", TimeZone := "" },
    RegistrationIP := [], Metadata := "\x7b\x7d", RegisteredAt := 0 }


/-- The sample player after an administrator has blocked it for fraud: version 2. -/
def blockedPlayer : Player :=
  (samplePlayer.ChangeStatus ⟨9⟩ StatusBlocked "fraud" ActorAdmin 200).1

/-- The sample player after the system has frozen it: version 2 as well. -/
def frozenPlayer : Player :=
  (samplePlayer.ChangeStatus ⟨10⟩ StatusFrozen "checks" ActorSystem 201).1

/-- Tables holding the sample player only. -/
def sampleDB : DB :=
  { players := [playerToRow Env.sample samplePlayer], events := [], outbox := [] }

/-- Committed sample tables, no transaction open, no call made. -/
def sampleWorld : World := { committed := sampleDB, pending := Option.none, calls := [] }

/-- The command that blocks the sample player for fraud, sent by an administrator. -/
def sampleCmd : ChangeStatusCmd :=
  { PlayerID := ⟨7⟩, ToStatus := "blocked", Reason := "fraud", Actor := ActorAdmin }

/-- Empty tables, no transaction open, no call made. -/
def emptyWorld : World :=
  { committed := { players := [], events := [], outbox := [] }, pending := Option.none,
    calls := [] }

/-- A creation command with the email in capitals and followed by a blank. -/
def sampleCreate : CreatePlayerCmd :=
  { Email := "A@B.com ", Phone := "", FirstName := "Ann", LastName := "Lee", BirthDate := 0,
    Gender := " None", CountryCode := "lv", Locale := "", TimeZone := "UTC",
    RegistrationIP := "",
    Metadata := "\x7b\x7d", RegisteredAt := 0 }

/-- A creation command for another person with the same email in small letters. -/
def sampleCreateAgain : CreatePlayerCmd :=
  { sampleCreate with Email := "a@b.com", FirstName := "Bob", Gender := "male" }

/-- A creation command with an email no stored player has. -/
def sampleCreateOther : CreatePlayerCmd :=
  { sampleCreate with Email := "c@d.com", FirstName := "Cy" }

/-- Every call goes through except the `INSERT` into `players`, refused as a duplicate:
another writer committed the same email after the lookup. -/
def insertRefused : Faults := { Faults.none with insertPlayer := some duplicateKey }

/-- The player `sampleCreate` creates at instant 100 under id 7. -/
def createdPlayer : Player :=
  { samplePlayer with Address := { CountryCode := "LV", Locale := "", TimeZone := "UTC" } }

/-- The player `sampleCreateAgain` describes, built at instant 101 under id 8. -/
def createdAgain : Player :=
  { createdPlayer with ID := ⟨8⟩, FirstName := "Bob", Gender := GenderMale, CreatedAt := 101,
                       UpdatedAt := 101 }

/-- Every call goes through except `BeginTx`. -/
def beginRefused : Faults := { Faults.none with beginTx := some ⟨"08006"⟩ }

/-- Every call goes through except `Rollback`. -/
def rollbackRefused : Faults := { Faults.none with rollback := some ⟨"08006"⟩ }

/-- An operation for the unit of work that stages one event and then fails with
`ErrForbidden`. -/
def stageThenFail (ctx : Ctx) (w : World) : Except Err Unit × World :=
  match EventsRepo.Append Faults.none ctx
      { ID := ⟨9⟩, PlayerID := ⟨7⟩, From := StatusActive, To := StatusBlocked,
        Reason := "fraud", ActorType := ActorAdmin, CreatedAt := 200 } w with
  | (_, w1) => (.error (.sentinel ErrForbidden), w1)

/-- The command that asks for the status the sample player already has. -/
def sameStatusCmd : ChangeStatusCmd := { sampleCmd with ToStatus := "active" }

/-- The command that blocks the sample player with a reason made of blanks. -/
def blankReasonCmd : ChangeStatusCmd := { sampleCmd with Reason := "  " }

/-- A creation command whose gender is not one of the four names. -/
def badGenderCreate : CreatePlayerCmd := { sampleCreate with Gender := "unknown" }

/-- The blocked sample player with a phone, another first name and a login recorded. -/
def editedPlayer : Player :=
  { blockedPlayer with Phone := "+37120000000", FirstName := "Anna", LastLoginAt := 250 }

/-! ## Postconditions used by the proofs -/

/-- What the function handed over by `Service.ChangeStatus` leaves behind: on an error the
committed tables are untouched; on `nil` too, and the pending tables hold the updated
player rows, one more event and, with an outbox configured, one more message. -/
def ChangeStatusTxPost (env : Env) (s : Service) (now : Time) (evID msgID : UUID)
    (dst : Status) (cmd : ChangeStatusCmd) (w : World)
    (res : Except Err (Player × PlayerStatusEvent) × World) : Prop :=
  match res with
  | (.error _, w1) => w1.committed = w.committed
  | (.ok (p, ev), w1) =>
    w1.committed = w.committed
    ∧ ∃ d0 r0, w.pending = some d0
      ∧ d0.players.find? (fun r => r.id == cmd.PlayerID) = some r0
      ∧ (rowToPlayer env r0).ChangeStatus evID dst cmd.Reason cmd.Actor now = (p, .ok ev)
      ∧ (∃ r ∈ d0.players, r.id = p.ID ∧ r.version = wrapInt64 (p.Version - 1))
      ∧ w1.pending = some
          { players := updateRows env p d0.players
            events := d0.events ++ [eventToRow ev]
            outbox :=
              if s.outbox then
                d0.outbox ++ [messageToRow
                  { ID := msgID, Aggregate := "player", AggregateID := p.ID,
                    Typ := "player.status.changed", Key := p.ID.String,
                    Payload := env.jsonObject (statusPayload env ev), CreatedAt := now }]
              else d0.outbox }

/-- The outcome of `Service.ChangeStatus` on the committed tables: an error leaves them as
they were; `nil` leaves the player rows updated, one more event and, with an outbox
configured, one more message. -/
def ChangeStatusPost (env : Env) (s : Service) (now : Time) (msgID : UUID) (w : World)
    (res : Except Err (Player × PlayerStatusEvent) × World) : Prop :=
  match res with
  | (.error _, w1) => w1.committed = w.committed
  | (.ok (p, ev), w1) =>
    w1.committed =
      { players := updateRows env p w.committed.players
        events := w.committed.events ++ [eventToRow ev]
        outbox :=
          if s.outbox then
            w.committed.outbox ++ [messageToRow
              { ID := msgID, Aggregate := "player", AggregateID := p.ID,
                Typ := "player.status.changed", Key := p.ID.String,
                Payload := env.jsonObject (statusPayload env ev), CreatedAt := now }]
          else w.committed.outbox }
    ∧ (∃ r ∈ w.committed.players, r.id = p.ID ∧ r.version = wrapInt64 (p.Version - 1))
    ∧ ev.PlayerID = p.ID


/-- What the function handed over by `Service.CreatePlayer` leaves behind: on an error the
committed tables are untouched; on `nil` too, and the pending tables hold one more player
row. -/
def CreateTxPost (env : Env) (p : Player) (w : World) (res : Except Err Unit × World) :
    Prop :=
  match res with
  | (.error _, w1) => w1.committed = w.committed
  | (.ok _, w1) =>
    w1.committed = w.committed
    ∧ ∃ d0, w.pending = some d0
      ∧ w1.pending = some { d0 with players := d0.players ++ [playerToRow env p] }

/-- The outcome of `Service.CreatePlayer` on the committed tables: an error leaves them as
they were; `nil` leaves one more player row, that of the player returned. -/
def CreatePlayerPost (env : Env) (now : Time) (id : UUID) (cmd : CreatePlayerCmd)
    (w : World) (res : Except Err Player × World) : Prop :=
  match res with
  | (.error _, w1) => w1.committed = w.committed
  | (.ok p, w1) =>
    Service.buildPlayer env now id cmd = .ok p
    ∧ w1.committed
        = { w.committed with players := w.committed.players ++ [playerToRow env p] }

/-- The errors `encodeDomainErr` of `handlers.go` answers with `validation`: those that are
`ErrValidation` or one of the `ErrInvalid...` values. -/
def validationKind (e : Err) : Bool :=
  e.Is ErrValidation || e.Is ErrInvalidEmail || e.Is ErrInvalidPhone || e.Is ErrInvalidStatus
    || e.Is ErrInvalidGender || e.Is ErrInvalidCountryCode || e.Is ErrInvalidLocale
    || e.Is ErrInvalidTimeZone

/-- Every player row pending in `w1` was already pending in `w` or carries a status other
than unknown: what a step inside a transaction may do to the rows not yet committed. -/
def PendingKnown (w w1 : World) : Prop :=
  ∀ d1, w1.pending = some d1 →
    ∃ d0, w.pending = some d0
      ∧ ∀ r ∈ d1.players, r ∈ d0.players ∨ r.status ≠ StatusUnknown.code

/-! ## Theorems -/


theorem all_of_dropWhile (p : Char → Bool) (l : List Char)
    (h : ∀ c ∈ l.dropWhile p, p c = true) : ∀ c ∈ l, p c = true := by
  induction l with
  | nil => simp
  | cons a t ih =>
    by_cases ha : p a = true
    · simp only [List.dropWhile_cons_of_pos ha] at h
      intro c hc
      rcases List.mem_cons.mp hc with rfl | hc
      · exact ha
      · exact ih h c hc
    · simp only [List.dropWhile_cons_of_neg ha] at h
      exact h

theorem trimSpace_data_eq_nil_iff (l : List Char) :
    trimRight (trimLeft l) = [] ↔ ∀ c ∈ l, isSpace c = true := by
  unfold trimRight trimLeft
  rw [List.reverse_eq_nil_iff, List.dropWhile_eq_nil_iff]
  constructor
  · intro h
    apply all_of_dropWhile
    intro c hc
    exact h c (List.mem_reverse.mpr hc)
  · intro h c hc
    have hc1 := List.mem_reverse.mp hc
    exact h c ((List.dropWhile_sublist _).subset hc1)

theorem trimSpace_eq_empty_iff (s : String) :
    TrimSpace s = "" ↔ ∀ c ∈ s.data, isSpace c = true := by
  unfold TrimSpace
  rw [← trimSpace_data_eq_nil_iff]
  constructor
  · intro h
    have := congrArg String.data h
    simpa using this
  · intro h
    rw [h]



/-- Below the upper bound of `int64` the wrapped successor is the successor. -/
theorem wrapInt64_succ (v : Int) (h : isInt64 v) (hmax : v ≠ maxInt64) :
    wrapInt64 (v + 1) = v + 1 := by
  unfold isInt64 minInt64 maxInt64 at *
  unfold wrapInt64
  have h1 : (v + 1 + 2 ^ 63) % 2 ^ 64 = v + 1 + 2 ^ 63 := by
    apply Int.emod_eq_of_lt <;> omega
  omega

/-- Above the lower bound of `int64` the wrapped predecessor is the predecessor. -/
theorem wrapInt64_pred (v : Int) (h : isInt64 v) (hmin : v ≠ minInt64) :
    wrapInt64 (v - 1) = v - 1 := by
  unfold isInt64 minInt64 maxInt64 at *
  unfold wrapInt64
  have h1 : (v - 1 + 2 ^ 63) % 2 ^ 64 = v - 1 + 2 ^ 63 := by
    apply Int.emod_eq_of_lt <;> omega
  omega

/-- The wrapped successor of an `int64` is never the value itself. -/
theorem wrapInt64_succ_ne (v : Int) : wrapInt64 (v + 1) ≠ v := by
  unfold wrapInt64
  omega

/-- Decrementing after incrementing gives the value back, in `int64` arithmetic. -/
theorem wrapInt64_pred_succ (v : Int) :
    isInt64 v → wrapInt64 (wrapInt64 (v + 1) - 1) = v := by
  unfold isInt64 minInt64 maxInt64
  unfold wrapInt64
  omega

/-- What a successful `ChangeStatus` returns, read off its last branch. -/
theorem changeStatus_ok (p q : Player) (evID : UUID) (dst : Status) (reason : String)
    (actor : ActorType) (now : Time) (ev : PlayerStatusEvent)
    (h : p.ChangeStatus evID dst reason actor now = (q, .ok ev)) :
    q = { p with Status := dst, StatusReason := reason,
                 Version := wrapInt64 (p.Version + 1), UpdatedAt := now }
    ∧ ev = { ID := evID, PlayerID := p.ID, From := p.Status, To := dst, Reason := reason,
             ActorType := actor, CreatedAt := now }
    ∧ dst ≠ StatusUnknown ∧ dst ≠ p.Status ∧ TrimSpace reason ≠ "" := by
  unfold Player.ChangeStatus at h
  split at h
  · simp at h
  · split at h
    · simp at h
    · split at h
      · simp at h
      · simp only [Prod.mk.injEq, Except.ok.injEq] at h
        obtain ⟨hq, hev⟩ := h
        subst hq
        refine ⟨rfl, ?_, by assumption, by assumption, by assumption⟩
        rw [← hev]
        rfl

/-- When none of its three guards fires, `ChangeStatus` succeeds. -/
theorem changeStatus_of_guards (p : Player) (evID : UUID) (dst : Status) (reason : String)
    (actor : ActorType) (now : Time) (h1 : dst ≠ StatusUnknown) (h2 : dst ≠ p.Status)
    (h3 : TrimSpace reason ≠ "") :
    p.ChangeStatus evID dst reason actor now
      = ({ p with Status := dst, StatusReason := reason,
                  Version := wrapInt64 (p.Version + 1), UpdatedAt := now },
         .ok { ID := evID, PlayerID := p.ID, From := p.Status, To := dst, Reason := reason,
               ActorType := actor, CreatedAt := now }) := by
  unfold Player.ChangeStatus
  rw [if_neg h1, if_neg h2, if_neg h3]
  rfl

/-- C4. When the aggregate's `ChangeStatus` succeeds, the player afterwards is the player
before with `Status` set to the target, `StatusReason` to the reason, `Version` incremented
by one (the `int64` increment, which is `+ 1` below the upper bound of the type) and
`UpdatedAt` set to `now`, every other field kept; the returned event carries the player's
id, the previous status, the target, the reason, the actor and `now`. -/
theorem C4_changeStatus_success (p q : Player) (evID : UUID) (dst : Status) (reason : String)
    (actor : ActorType) (now : Time) (ev : PlayerStatusEvent)
    (h : p.ChangeStatus evID dst reason actor now = (q, .ok ev)) :
    q = { p with Status := dst, StatusReason := reason,
                 Version := wrapInt64 (p.Version + 1), UpdatedAt := now }
    ∧ q.Status = dst ∧ q.StatusReason = reason ∧ q.UpdatedAt = now
    ∧ q.Version = wrapInt64 (p.Version + 1)
    ∧ (isInt64 p.Version → p.Version ≠ maxInt64 → q.Version = p.Version + 1)
    ∧ q.ID = p.ID ∧ q.Email = p.Email ∧ q.Phone = p.Phone ∧ q.Address = p.Address
    ∧ q.FirstName = p.FirstName ∧ q.LastName = p.LastName ∧ q.BirthDate = p.BirthDate
    ∧ q.Gender = p.Gender ∧ q.RegistrationIP = p.RegistrationIP
    ∧ q.RegisteredAt = p.RegisteredAt ∧ q.LastLoginAt = p.LastLoginAt
    ∧ q.Metadata = p.Metadata ∧ q.CreatedAt = p.CreatedAt
    ∧ ev = { ID := evID, PlayerID := p.ID, From := p.Status, To := dst, Reason := reason,
             ActorType := actor, CreatedAt := now } := by
  obtain ⟨hq, hev, _, _, _⟩ := changeStatus_ok p q evID dst reason actor now ev h
  subst hq
  refine ⟨rfl, rfl, rfl, rfl, rfl, ?_, rfl, rfl, rfl, rfl, rfl, rfl, rfl, rfl, rfl, rfl,
    rfl, rfl, rfl, hev⟩
  intro hr hm
  exact wrapInt64_succ _ hr hm

/-- C4, at a concrete input: an active player at version 1 blocked for fraud by an
administrator. -/
theorem C4_changeStatus_success_witness :
    (samplePlayer.ChangeStatus ⟨9⟩ StatusBlocked "fraud" ActorAdmin 200).1.Version = 2
    ∧ (samplePlayer.ChangeStatus ⟨9⟩ StatusBlocked "fraud" ActorAdmin 200).1.Status
        = StatusBlocked
    ∧ (samplePlayer.ChangeStatus ⟨9⟩ StatusBlocked "fraud" ActorAdmin 200).2
        = .ok { ID := ⟨9⟩, PlayerID := ⟨7⟩, From := StatusActive, To := StatusBlocked,
                Reason := "fraud", ActorType := ActorAdmin, CreatedAt := 200 } := by
  have h := C4_changeStatus_success samplePlayer
    (samplePlayer.ChangeStatus ⟨9⟩ StatusBlocked "fraud" ActorAdmin 200).1 ⟨9⟩ StatusBlocked
    "fraud" ActorAdmin 200
    { ID := ⟨9⟩, PlayerID := ⟨7⟩, From := StatusActive, To := StatusBlocked,
      Reason := "fraud", ActorType := ActorAdmin, CreatedAt := 200 } rfl
  refine ⟨?_, h.2.1, rfl⟩
  rw [h.2.2.2.2.1]
  decide

/-- C5. For every player, whatever its current status, and every reason and actor,
`ChangeStatus` with the target equal to the current status fails and leaves the player as
it was, and the error is a validation error: `ErrValidation` or one of the `ErrInvalid...`
values. It is `ErrValidation` itself, with the text `status already ...`, for every current
status but the zero value unknown: so for every player that satisfies `Validate` and for
every target `ParseStatus` returns; for the zero value it is `ErrInvalidStatus`. -/
theorem C5_changeStatus_same_status (env : Env) (p : Player) (evID : UUID) (reason : String)
    (actor : ActorType) (now : Time) :
    ∃ e, p.ChangeStatus evID p.Status reason actor now = (p, .error e)
      ∧ validationKind e = true
      ∧ (p.Status ≠ StatusUnknown →
          e = .wrap ErrValidation ("status already " ++ p.Status.String)
          ∧ e.Is ErrValidation = true)
      ∧ (p.Validate env = Option.none → e.Is ErrValidation = true)
      ∧ (∀ v, ParseStatus v = (p.Status, Option.none) → e.Is ErrValidation = true)
      ∧ (p.Status = StatusUnknown → e = .sentinel ErrInvalidStatus) := by
  by_cases hs : p.Status = StatusUnknown
  · refine ⟨.sentinel ErrInvalidStatus, ?_, rfl, fun h => absurd hs h, ?_, ?_, fun _ => rfl⟩
    · unfold Player.ChangeStatus
      rw [if_pos hs]
    · intro hv
      unfold Player.Validate at hv
      split at hv
      · simp at hv
      · split at hv
        · simp at hv
        · simp [hs] at hv
    · intro v hv
      have hne : p.Status ≠ StatusUnknown := by
        unfold ParseStatus at hv
        split at hv
        · rw [← (Prod.mk.inj hv).1]; decide
        · split at hv
          · rw [← (Prod.mk.inj hv).1]; decide
          · split at hv
            · rw [← (Prod.mk.inj hv).1]; decide
            · split at hv
              · rw [← (Prod.mk.inj hv).1]; decide
              · simp at hv
      exact absurd hs hne
  · refine ⟨.wrap ErrValidation ("status already " ++ p.Status.String), ?_, rfl,
      fun _ => ⟨rfl, rfl⟩, fun _ => rfl, fun _ _ => rfl, fun h => absurd h hs⟩
    unfold Player.ChangeStatus
    simp [hs]

/-- C5, at concrete inputs: an active player asked to become active gets `ErrValidation`
with the text `status already active`, and a player value whose status is the zero value,
asked for that same status, gets `ErrInvalidStatus`, which is a validation error too. -/
theorem C5_changeStatus_same_status_witness :
    samplePlayer.ChangeStatus ⟨9⟩ samplePlayer.Status "" ActorSystem 200
      = (samplePlayer, .error (.wrap ErrValidation "status already active"))
    ∧ unknownPlayer.ChangeStatus ⟨9⟩ unknownPlayer.Status "fraud" ActorAdmin 200
      = (unknownPlayer, .error (.sentinel ErrInvalidStatus))
    ∧ validationKind (.sentinel ErrInvalidStatus) = true := by
  obtain ⟨e, h, _, hk, _, _, _⟩ :=
    C5_changeStatus_same_status Env.sample samplePlayer ⟨9⟩ "" ActorSystem 200
  obtain ⟨e2, h2, hv2, _, _, _, hu⟩ :=
    C5_changeStatus_same_status Env.sample unknownPlayer ⟨9⟩ "fraud" ActorAdmin 200
  have he : e = .wrap ErrValidation "status already active" := (hk (by decide)).1
  have he2 : e2 = .sentinel ErrInvalidStatus := hu rfl
  rw [he] at h
  rw [he2] at h2 hv2
  exact ⟨h, h2, hv2⟩

/-- C6. For every player, every target among active, blocked, frozen and closed, and every
actor, `ChangeStatus` with a reason that is empty or made of white space only fails with an
error that is `ErrValidation`, and leaves the player as it was. -/
theorem C6_changeStatus_blank_reason (p : Player) (evID : UUID) (dst : Status)
    (reason : String) (actor : ActorType) (now : Time)
    (hdst : dst = StatusActive ∨ dst = StatusBlocked ∨ dst = StatusFrozen ∨ dst = StatusClosed)
    (hblank : ∀ c ∈ reason.data, isSpace c = true) :
    ∃ e, p.ChangeStatus evID dst reason actor now = (p, .error e)
      ∧ e.Is ErrValidation = true := by
  have hne : dst ≠ StatusUnknown := by
    rcases hdst with h | h | h | h <;> subst h <;> decide
  have hb : TrimSpace reason = "" := (trimSpace_eq_empty_iff reason).mpr hblank
  unfold Player.ChangeStatus
  by_cases hsame : dst = p.Status
  · exact ⟨.wrap ErrValidation ("status already " ++ dst.String), by simp [hne, ← hsame], rfl⟩
  · exact ⟨.wrap ErrValidation "status_reason required", by simp [hne, hsame, hb], rfl⟩

/-- C6, at a concrete input: blocking an active player with a reason of blanks and a tab. -/
theorem C6_changeStatus_blank_reason_witness :
    ∃ e, samplePlayer.ChangeStatus ⟨9⟩ StatusBlocked " \t " ActorAdmin 200
        = (samplePlayer, .error e) ∧ e.Is ErrValidation = true :=
  C6_changeStatus_blank_reason samplePlayer ⟨9⟩ StatusBlocked " \t " ActorAdmin 200
    (by decide) (by decide)


/-- What a successful `NewPlayer` returns, read off its last branch. -/
theorem newPlayer_ok (env : Env) (id : UUID) (params : CreateParams) (now : Time)
    (pl : Player) (h : NewPlayer env id params now = .ok pl) :
    pl = { ID := id, Email := TrimSpace (ToLower env params.Email), Phone := params.Phone,
           Status := StatusActive, StatusReason := "", Address := params.Address,
           FirstName := params.FirstName, LastName := params.LastName,
           BirthDate := params.BirthDate, Gender := params.Gender,
           RegistrationIP := params.RegistrationIP, RegisteredAt := params.RegisteredAt,
           LastLoginAt := 0, Metadata := params.Metadata, Version := 1, CreatedAt := now,
           UpdatedAt := now } := by
  unfold NewPlayer at h
  simp only at h
  split at h
  · simp at h
  · split at h
    · simp at h
    · split at h
      · simp at h
      · split at h
        · simp at h
        · simp only [Except.ok.injEq] at h
          exact h.symm

/-- C7. Whenever `NewPlayer` succeeds with instant `now`, the player it returns has
`Version = 1`, status active, an empty status reason, `CreatedAt = UpdatedAt = now`, and as
`Email` the input email lower-cased and trimmed of surrounding white space; on the input
`"A@B.com "` that normal form is `"a@b.com"`. -/
theorem C7_newPlayer (env : Env) (id : UUID) (params : CreateParams) (now : Time)
    (pl : Player) (h : NewPlayer env id params now = .ok pl) :
    pl.Version = 1 ∧ pl.Status = StatusActive ∧ pl.StatusReason = ""
    ∧ pl.CreatedAt = now ∧ pl.UpdatedAt = now
    ∧ pl.Email = TrimSpace (ToLower env params.Email)
    ∧ TrimSpace (ToLower env "A@B.com ") = "a@b.com" := by
  have hp := newPlayer_ok env id params now pl h
  subst hp
  exact ⟨rfl, rfl, rfl, rfl, rfl, rfl, rfl⟩

/-- C7, at a concrete input: the email `"A@B.com "` is accepted and stored as `"a@b.com"`. -/
theorem C7_newPlayer_witness :
    ∃ pl, NewPlayer Env.sample ⟨7⟩ sampleParams 100 = .ok pl
      ∧ pl.Email = "a@b.com" ∧ pl.Version = 1 ∧ pl.Status = StatusActive :=
  ⟨samplePlayer, rfl,
    ((C7_newPlayer Env.sample ⟨7⟩ sampleParams 100 samplePlayer rfl).2.2.2.2.2.1).trans rfl,
    (C7_newPlayer Env.sample ⟨7⟩ sampleParams 100 samplePlayer rfl).1,
    (C7_newPlayer Env.sample ⟨7⟩ sampleParams 100 samplePlayer rfl).2.1⟩

/-! ## The statement of `Repo.Update` -/

theorem updateMatches_iff (p : Player) (r : PlayerRow) :
    updateMatches p r = true ↔ r.id = p.ID ∧ r.version = wrapInt64 (p.Version - 1) := by
  simp [updateMatches]

theorem rowsAffected_eq_zero_iff (p : Player) (rows : List PlayerRow) :
    rowsAffected p rows = 0 ↔
      ¬ ∃ r ∈ rows, r.id = p.ID ∧ r.version = wrapInt64 (p.Version - 1) := by
  unfold rowsAffected
  rw [List.length_eq_zero, List.filter_eq_nil_iff]
  constructor
  · rintro h ⟨r, hr, hm⟩
    exact h r hr ((updateMatches_iff p r).mpr hm)
  · intro h r hr hm
    exact h ⟨r, hr, (updateMatches_iff p r).mp hm⟩

theorem updateRows_of_no_match (env : Env) (p : Player) (rows : List PlayerRow)
    (h : ¬ ∃ r ∈ rows, r.id = p.ID ∧ r.version = wrapInt64 (p.Version - 1)) :
    updateRows env p rows = rows := by
  unfold updateRows
  conv_rhs => rw [← List.map_id rows]
  apply List.map_congr_left
  intro r hr
  have : updateMatches p r = false := by
    cases hm : updateMatches p r with
    | false => rfl
    | true => exact absurd ⟨r, hr, (updateMatches_iff p r).mp hm⟩ h
  simp [this]

theorem updateRows_eq_map (env : Env) (p : Player) (rows : List PlayerRow) :
    updateRows env p rows
      = rows.map (fun r => if r.id = p.ID ∧ r.version = wrapInt64 (p.Version - 1)
                           then setColumns env p r else r) := by
  unfold updateRows
  apply List.map_congr_left
  intro r _
  by_cases hm : updateMatches p r = true
  · rw [if_pos hm, if_pos ((updateMatches_iff p r).mp hm)]
  · rw [if_neg hm, if_neg (fun h => hm ((updateMatches_iff p r).mpr h))]

theorem view_note (w : World) (c : Call) (ex : Executor) : (w.note c).view ex = w.view ex := by
  cases ex <;> rfl

theorem view_put (w : World) (ex : Executor) (d : DB) : (w.put ex d).view ex = some d := by
  cases ex <;> rfl

/-- What `Repo.Update` returns and leaves behind when its statement executes. -/
theorem Repo.Update_exec (env : Env) (f : Faults) (ctx : Ctx) (p : Player) (w : World) (d : DB)
    (hexec : f.updatePlayer = Option.none) (hview : w.view (pickExecutor ctx) = some d) :
    Repo.Update env f ctx p w
      = (if rowsAffected p d.players = 0 then some (.sentinel ErrConflict) else Option.none,
         (w.note (.Update p.ID)).put (pickExecutor ctx)
           { d with players := updateRows env p d.players }) := by
  unfold Repo.Update
  simp only [hexec, view_note, hview]
  split <;> rfl

theorem put_same_committed (w : World) (ex : Executor) (d : DB) (h : w.view ex = some d) :
    (w.put ex d).committed = w.committed ∧ (w.put ex d).pending = w.pending := by
  cases ex
  · simp only [World.view] at h
    simp [World.put, h]
  · simp only [World.view, Option.some.injEq] at h
    simp [World.put, h]

/-- The row the `SET` list of `Repo.Update` writes, column by column. -/
theorem setColumns_eq (env : Env) (p : Player) (r : PlayerRow) :
    setColumns env p r =
      { id := r.id
        email := r.email
        phone := if p.Phone = "" then Option.none else some p.Phone
        status := p.Status.code
        status_reason := if p.StatusReason = "" then Option.none else some p.StatusReason
        country_code :=
          if p.Address.CountryCode = "" then Option.none else some p.Address.CountryCode
        locale := if p.Address.Locale = "" then Option.none else some p.Address.Locale
        time_zone := if p.Address.TimeZone = "" then Option.none else some p.Address.TimeZone
        first_name := if p.FirstName = "" then Option.none else some p.FirstName
        last_name := if p.LastName = "" then Option.none else some p.LastName
        birth_date := if p.BirthDate = 0 then Option.none else some p.BirthDate
        gender := p.Gender.code
        registration_ip :=
          if p.RegistrationIP = [] then Option.none else some (env.ipString p.RegistrationIP)
        registered_at := if p.RegisteredAt = 0 then Option.none else some p.RegisteredAt
        last_login_at := if p.LastLoginAt = 0 then Option.none else some p.LastLoginAt
        metadata := p.Metadata
        version := p.Version
        created_at := r.created_at
        updated_at := p.UpdatedAt } := by
  simp [setColumns, nullStr, nullTime, nullIP, Time.IsZero]

/-- When the statement executes and no row matches, `Repo.Update` reports a conflict and
the tables are as before. -/
theorem Repo.Update_no_match (env : Env) (f : Faults) (ctx : Ctx) (p : Player) (w : World)
    (d : DB) (hexec : f.updatePlayer = Option.none)
    (hview : w.view (pickExecutor ctx) = some d)
    (hno : ¬ ∃ r ∈ d.players, r.id = p.ID ∧ r.version = wrapInt64 (p.Version - 1)) :
    (Repo.Update env f ctx p w).1 = some (.sentinel ErrConflict)
    ∧ (Repo.Update env f ctx p w).2.committed = w.committed
    ∧ (Repo.Update env f ctx p w).2.pending = w.pending := by
  rw [Repo.Update_exec env f ctx p w d hexec hview]
  have h0 := (rowsAffected_eq_zero_iff p d.players).mpr hno
  rw [updateRows_of_no_match env p d.players hno]
  have hv : (w.note (.Update p.ID)).view (pickExecutor ctx) = some d := by
    rw [view_note]; exact hview
  have := put_same_committed (w.note (.Update p.ID)) (pickExecutor ctx) d hv
  refine ⟨by simp [h0], ?_, ?_⟩
  · simpa [World.note] using this.1
  · simpa [World.note] using this.2

/-- C1. When the `UPDATE` of `Repo.Update` executes on tables `d`, the call returns `nil`
exactly when `d` holds a row with id `p.ID` and version `p.Version - 1` (the `int64`
subtraction of the source, equal to `p.Version - 1` above the lower bound of the type); then
every such row is replaced by the row written out below: each of the sixteen columns of the
`SET` list taken from `p` (empty strings, zero instants and a nil IP stored as null), its
version becoming `p.Version`, with `id`, `email` and `created_at` kept, and every other row
and table left alone. When no such row exists the call returns `ErrConflict` itself and the
tables are as before. -/
theorem C1_update_optimistic_lock (env : Env) (f : Faults) (ctx : Ctx) (p : Player)
    (w : World) (d : DB) (hexec : f.updatePlayer = Option.none)
    (hview : w.view (pickExecutor ctx) = some d) :
    ((Repo.Update env f ctx p w).1 = Option.none ↔
        ∃ r ∈ d.players, r.id = p.ID ∧ r.version = wrapInt64 (p.Version - 1))
    ∧ ((Repo.Update env f ctx p w).1 = Option.none →
        (Repo.Update env f ctx p w).2.view (pickExecutor ctx)
          = some { d with
              players := d.players.map (fun r =>
                if r.id = p.ID ∧ r.version = wrapInt64 (p.Version - 1)
                then
                  ({ id := r.id
                     email := r.email
                     phone := if p.Phone = "" then Option.none else some p.Phone
                     status := p.Status.code
                     status_reason :=
                       if p.StatusReason = "" then Option.none else some p.StatusReason
                     country_code :=
                       if p.Address.CountryCode = "" then Option.none
                       else some p.Address.CountryCode
                     locale :=
                       if p.Address.Locale = "" then Option.none else some p.Address.Locale
                     time_zone :=
                       if p.Address.TimeZone = "" then Option.none
                       else some p.Address.TimeZone
                     first_name := if p.FirstName = "" then Option.none else some p.FirstName
                     last_name := if p.LastName = "" then Option.none else some p.LastName
                     birth_date := if p.BirthDate = 0 then Option.none else some p.BirthDate
                     gender := p.Gender.code
                     registration_ip :=
                       if p.RegistrationIP = [] then Option.none
                       else some (env.ipString p.RegistrationIP)
                     registered_at :=
                       if p.RegisteredAt = 0 then Option.none else some p.RegisteredAt
                     last_login_at :=
                       if p.LastLoginAt = 0 then Option.none else some p.LastLoginAt
                     metadata := p.Metadata
                     version := p.Version
                     created_at := r.created_at
                     updated_at := p.UpdatedAt } : PlayerRow)
                else r) })
    ∧ ((¬ ∃ r ∈ d.players, r.id = p.ID ∧ r.version = wrapInt64 (p.Version - 1)) →
        (Repo.Update env f ctx p w).1 = some (.sentinel ErrConflict)
        ∧ (Repo.Update env f ctx p w).2.committed = w.committed
        ∧ (Repo.Update env f ctx p w).2.pending = w.pending)
    ∧ (isInt64 p.Version → p.Version ≠ minInt64 →
        wrapInt64 (p.Version - 1) = p.Version - 1) := by
  rw [Repo.Update_exec env f ctx p w d hexec hview]
  refine ⟨?_, ?_, ?_, ?_⟩
  · rw [← not_iff_not, ← rowsAffected_eq_zero_iff]
    by_cases h0 : rowsAffected p d.players = 0 <;> simp [h0]
  · intro _
    rw [view_put, updateRows_eq_map]
    simp only [setColumns_eq]
  · intro hno
    have := Repo.Update_no_match env f ctx p w d hexec hview hno
    rw [Repo.Update_exec env f ctx p w d hexec hview] at this
    exact this
  · intro hr hm
    exact wrapInt64_pred _ hr hm

/-- C1, at concrete inputs: the sample player is stored at version 1; an update carrying
version 2 goes through and stores version 2 and status blocked; the same update applied
to the result finds no row and is reported as a conflict. An update that also carries a
phone, another first name and a login instant stores those three columns too. -/
theorem C1_update_optimistic_lock_witness :
    (Repo.Update Env.sample Faults.none .background blockedPlayer sampleWorld).1 = Option.none
    ∧ ((Repo.Update Env.sample Faults.none .background blockedPlayer sampleWorld).2.committed.players.map
        (fun r => (r.version, r.status))) = [(2, 2)]
    ∧ (Repo.Update Env.sample Faults.none .background blockedPlayer
        (Repo.Update Env.sample Faults.none .background blockedPlayer sampleWorld).2).1
        = some (.sentinel ErrConflict)
    ∧ ((Repo.Update Env.sample Faults.none .background editedPlayer sampleWorld).2.committed.players.map
        (fun r => (r.phone, r.first_name, r.last_login_at, r.version)))
        = [(some "+37120000000", some "Anna", some 250, 2)] :=
  ⟨(C1_update_optimistic_lock Env.sample Faults.none .background blockedPlayer sampleWorld
      sampleDB rfl rfl).1.mpr ⟨playerToRow Env.sample samplePlayer, by simp [sampleDB], rfl, rfl⟩,
    rfl, rfl, rfl⟩

/-! ## Two writers that loaded the same version -/

theorem find_map_of_id (g : PlayerRow → PlayerRow) (hg : ∀ r, (g r).id = r.id) (id : UUID)
    (rows : List PlayerRow) :
    (rows.map g).find? (fun r => r.id == id) = (rows.find? (fun r => r.id == id)).map g := by
  induction rows with
  | nil => rfl
  | cons a t ih =>
    simp only [List.map_cons, List.find?_cons, hg]
    cases h : (a.id == id) with
    | true => rfl
    | false => simpa using ih

theorem updateRows_find (env : Env) (p : Player) (id : UUID) (rows : List PlayerRow) :
    (updateRows env p rows).find? (fun r => r.id == id)
      = (rows.find? (fun r => r.id == id)).map
          (fun r => if updateMatches p r then setColumns env p r else r) := by
  unfold updateRows
  apply find_map_of_id
  intro r
  split <;> rfl

theorem no_match_after_update (env : Env) (p q : Player) (rows : List PlayerRow)
    (hid : q.ID = p.ID) (hver : q.Version = p.Version) :
    ¬ ∃ r ∈ updateRows env p rows, r.id = q.ID ∧ r.version = wrapInt64 (q.Version - 1) := by
  rintro ⟨r, hr, hrid, hrv⟩
  unfold updateRows at hr
  rw [List.mem_map] at hr
  obtain ⟨r0, _, hr0⟩ := hr
  by_cases hm : updateMatches p r0 = true
  · rw [if_pos hm] at hr0
    subst hr0
    have hv : (setColumns env p r0).version = p.Version := rfl
    rw [hv, hver] at hrv
    have := wrapInt64_succ_ne (p.Version - 1)
    rw [Int.sub_add_cancel] at this
    unfold wrapInt64 at hrv this
    omega
  · rw [if_neg hm] at hr0
    subst hr0
    apply hm
    rw [updateMatches_iff]
    exact ⟨hrid.trans hid, by rw [hrv, hver]⟩

/-- The two updates of two runs that loaded the same row, applied in the order given. -/
theorem two_updates_in_order (env : Env) (f1 f2 : Faults) (ctx : Ctx) (w : World) (d : DB)
    (r0 : PlayerRow) (p1 p2 : Player) (ev1 ev2 : PlayerStatusEvent) (id1 id2 : UUID)
    (dst1 dst2 : Status) (reason1 reason2 : String) (actor1 actor2 : ActorType)
    (now1 now2 : Time)
    (hview : w.view (pickExecutor ctx) = some d)
    (hrow : d.players.find? (fun r => r.id == r0.id) = some r0)
    (hv : isInt64 r0.version)
    (h1 : (rowToPlayer env r0).ChangeStatus id1 dst1 reason1 actor1 now1 = (p1, .ok ev1))
    (h2 : (rowToPlayer env r0).ChangeStatus id2 dst2 reason2 actor2 now2 = (p2, .ok ev2))
    (hf1 : f1.updatePlayer = Option.none) (hf2 : f2.updatePlayer = Option.none) :
    (Repo.Update env f1 ctx p1 w).1 = Option.none
    ∧ (∃ d1, (Repo.Update env f1 ctx p1 w).2.view (pickExecutor ctx) = some d1
        ∧ ∃ r1, d1.players.find? (fun r => r.id == r0.id) = some r1
            ∧ r1.version = wrapInt64 (r0.version + 1) ∧ r1.status = dst1.code)
    ∧ (Repo.Update env f2 ctx p2 (Repo.Update env f1 ctx p1 w).2).1
        = some (.sentinel ErrConflict)
    ∧ (Repo.Update env f2 ctx p2 (Repo.Update env f1 ctx p1 w).2).2.committed
        = (Repo.Update env f1 ctx p1 w).2.committed
    ∧ (Repo.Update env f2 ctx p2 (Repo.Update env f1 ctx p1 w).2).2.pending
        = (Repo.Update env f1 ctx p1 w).2.pending := by
  have c1 := (changeStatus_ok _ _ _ _ _ _ _ _ h1).1
  have c2 := (changeStatus_ok _ _ _ _ _ _ _ _ h2).1
  have hp1id : p1.ID = r0.id := by rw [c1]; rfl
  have hp2id : p2.ID = r0.id := by rw [c2]; rfl
  have hp1v : p1.Version = wrapInt64 (r0.version + 1) := by rw [c1]; rfl
  have hp2v : p2.Version = wrapInt64 (r0.version + 1) := by rw [c2]; rfl
  have hp1s : p1.Status = dst1 := by rw [c1]
  have hmem : r0 ∈ d.players := List.mem_of_find?_eq_some hrow
  have hm1 : updateMatches p1 r0 = true := by
    rw [updateMatches_iff, hp1id, hp1v, wrapInt64_pred_succ _ hv]
    exact ⟨rfl, rfl⟩
  have hex : ∃ r ∈ d.players, r.id = p1.ID ∧ r.version = wrapInt64 (p1.Version - 1) :=
    ⟨r0, hmem, (updateMatches_iff p1 r0).mp hm1⟩
  have hne : rowsAffected p1 d.players ≠ 0 := by
    rw [Ne, rowsAffected_eq_zero_iff]
    exact fun h => h hex
  have hU1 := Repo.Update_exec env f1 ctx p1 w d hf1 hview
  have hview1 : (Repo.Update env f1 ctx p1 w).2.view (pickExecutor ctx)
      = some { d with players := updateRows env p1 d.players } := by
    rw [hU1, view_put]
  have hno := no_match_after_update env p1 p2 d.players (hp2id.trans hp1id.symm)
    (hp2v.trans hp1v.symm)
  have hC := Repo.Update_no_match env f2 ctx p2 (Repo.Update env f1 ctx p1 w).2 _ hf2 hview1 hno
  refine ⟨?_, ⟨_, hview1, setColumns env p1 r0, ?_, ?_, ?_⟩, hC.1, hC.2.1, hC.2.2⟩
  · rw [hU1]
    simp [hne]
  · show (updateRows env p1 d.players).find? (fun r => r.id == r0.id) = _
    rw [updateRows_find, hrow]
    simp [hm1]
  · exact hp1v
  · show p1.Status.code = dst1.code
    rw [hp1s]

/-- C2. A row is stored at version `v`; two runs of `ChangeStatus` each loaded it and each
passed the aggregate's `ChangeStatus`. When their two updates execute one after the other,
in either order, the first returns `nil` and leaves the row at version `v + 1` (the `int64`
increment) with its own target status, and the second returns `ErrConflict` and leaves
the tables as the first left them. -/
theorem C2_two_writers_one_wins (env : Env) (f1 f2 : Faults) (ctx : Ctx) (w : World) (d : DB)
    (r0 : PlayerRow) (p1 p2 : Player) (ev1 ev2 : PlayerStatusEvent) (id1 id2 : UUID)
    (dst1 dst2 : Status) (reason1 reason2 : String) (actor1 actor2 : ActorType)
    (now1 now2 : Time)
    (hview : w.view (pickExecutor ctx) = some d)
    (hrow : d.players.find? (fun r => r.id == r0.id) = some r0)
    (hv : isInt64 r0.version)
    (h1 : (rowToPlayer env r0).ChangeStatus id1 dst1 reason1 actor1 now1 = (p1, .ok ev1))
    (h2 : (rowToPlayer env r0).ChangeStatus id2 dst2 reason2 actor2 now2 = (p2, .ok ev2))
    (hf1 : f1.updatePlayer = Option.none) (hf2 : f2.updatePlayer = Option.none) :
    ((Repo.Update env f1 ctx p1 w).1 = Option.none
      ∧ (∃ d1, (Repo.Update env f1 ctx p1 w).2.view (pickExecutor ctx) = some d1
          ∧ ∃ r1, d1.players.find? (fun r => r.id == r0.id) = some r1
              ∧ r1.version = wrapInt64 (r0.version + 1) ∧ r1.status = dst1.code)
      ∧ (Repo.Update env f2 ctx p2 (Repo.Update env f1 ctx p1 w).2).1
          = some (.sentinel ErrConflict)
      ∧ (Repo.Update env f2 ctx p2 (Repo.Update env f1 ctx p1 w).2).2.committed
          = (Repo.Update env f1 ctx p1 w).2.committed
      ∧ (Repo.Update env f2 ctx p2 (Repo.Update env f1 ctx p1 w).2).2.pending
          = (Repo.Update env f1 ctx p1 w).2.pending)
    ∧ ((Repo.Update env f2 ctx p2 w).1 = Option.none
      ∧ (∃ d1, (Repo.Update env f2 ctx p2 w).2.view (pickExecutor ctx) = some d1
          ∧ ∃ r1, d1.players.find? (fun r => r.id == r0.id) = some r1
              ∧ r1.version = wrapInt64 (r0.version + 1) ∧ r1.status = dst2.code)
      ∧ (Repo.Update env f1 ctx p1 (Repo.Update env f2 ctx p2 w).2).1
          = some (.sentinel ErrConflict)
      ∧ (Repo.Update env f1 ctx p1 (Repo.Update env f2 ctx p2 w).2).2.committed
          = (Repo.Update env f2 ctx p2 w).2.committed
      ∧ (Repo.Update env f1 ctx p1 (Repo.Update env f2 ctx p2 w).2).2.pending
          = (Repo.Update env f2 ctx p2 w).2.pending)
    ∧ (r0.version ≠ maxInt64 → wrapInt64 (r0.version + 1) = r0.version + 1) :=
  ⟨two_updates_in_order env f1 f2 ctx w d r0 p1 p2 ev1 ev2 id1 id2 dst1 dst2 reason1 reason2
      actor1 actor2 now1 now2 hview hrow hv h1 h2 hf1 hf2,
    two_updates_in_order env f2 f1 ctx w d r0 p2 p1 ev2 ev1 id2 id1 dst2 dst1 reason2 reason1
      actor2 actor1 now2 now1 hview hrow hv h2 h1 hf2 hf1,
    fun hm => wrapInt64_succ _ hv hm⟩

/-- C2, at concrete inputs: the sample player is stored at version 1; one run blocks it,
another freezes it, both from version 1. Applied first, the block goes through and the
freeze conflicts. -/
theorem C2_two_writers_one_wins_witness :
    (Repo.Update Env.sample Faults.none .background blockedPlayer sampleWorld).1 = Option.none
    ∧ (Repo.Update Env.sample Faults.none .background frozenPlayer
        (Repo.Update Env.sample Faults.none .background blockedPlayer sampleWorld).2).1
        = some (.sentinel ErrConflict)
    ∧ ((Repo.Update Env.sample Faults.none .background frozenPlayer
        (Repo.Update Env.sample Faults.none .background blockedPlayer
          sampleWorld).2).2.committed.players.map (fun r => (r.version, r.status)))
        = [(2, 2)] :=
  have h := C2_two_writers_one_wins Env.sample Faults.none Faults.none .background sampleWorld
    sampleDB (playerToRow Env.sample samplePlayer) blockedPlayer frozenPlayer
    { ID := ⟨9⟩, PlayerID := ⟨7⟩, From := StatusActive, To := StatusBlocked,
      Reason := "fraud", ActorType := ActorAdmin, CreatedAt := 200 }
    { ID := ⟨10⟩, PlayerID := ⟨7⟩, From := StatusActive, To := StatusFrozen,
      Reason := "checks", ActorType := ActorSystem, CreatedAt := 201 }
    ⟨9⟩ ⟨10⟩ StatusBlocked StatusFrozen "fraud" "checks" ActorAdmin ActorSystem 200 201
    rfl rfl (by decide) rfl rfl rfl rfl
  ⟨h.1.1, h.1.2.2.1, rfl⟩

/-! ## The unit of work and the two transactions of the service -/

/-- The outbox message `Service.ChangeStatus` builds for a player and its event. -/
theorem newOutboxMessage_ok (env : Env) (f : Faults) (id : UUID) (aggregate : String)
    (aggregateID : UUID) (typ key : String) (payload : List (String × String)) (sentAt : Time)
    (h : f.marshal = Option.none) :
    NewOutboxMessage env f id aggregate aggregateID typ key payload sentAt
      = .ok { ID := id, Aggregate := aggregate, AggregateID := aggregateID, Typ := typ,
              Key := key, Payload := env.jsonObject payload, CreatedAt := sentAt } := by
  unfold NewOutboxMessage
  rw [h]

/-- `Repo.GetByID` through the transaction: an error, or the first row under the id in the
pending tables; either way only the call record grows. -/
theorem Repo.GetByID_tx (env : Env) (f : Faults) (id : UUID) (w : World) :
    (∃ e, Repo.GetByID env f .withTx id w = (.error e, w.note (.GetByID id)))
    ∨ (∃ d r, w.pending = some d ∧ d.players.find? (fun r => r.id == id) = some r
        ∧ Repo.GetByID env f .withTx id w = (.ok (rowToPlayer env r), w.note (.GetByID id))) := by
  unfold Repo.GetByID
  simp only [pickExecutor, TxFromContext, World.view, World.note, if_true]
  cases f.selectPlayer with
  | some e => exact Or.inl ⟨_, rfl⟩
  | none =>
    cases hp : w.pending with
    | none => exact Or.inl ⟨_, rfl⟩
    | some d =>
      dsimp only
      cases hf : d.players.find? (fun r => r.id == id) with
      | none => exact Or.inl ⟨_, rfl⟩
      | some r => exact Or.inr ⟨d, r, rfl, hf, rfl⟩

/-- `Repo.Update` through the transaction: an error with the committed tables untouched,
or `nil` with the rows of the pending tables updated. -/
theorem Repo.Update_tx (env : Env) (f : Faults) (p : Player) (w : World) :
    (∃ e w1, Repo.Update env f .withTx p w = (some e, w1) ∧ w1.committed = w.committed)
    ∨ (∃ d, w.pending = some d
        ∧ (∃ r ∈ d.players, r.id = p.ID ∧ r.version = wrapInt64 (p.Version - 1))
        ∧ Repo.Update env f .withTx p w
          = (Option.none, { committed := w.committed,
                            pending := some { d with players := updateRows env p d.players },
                            calls := w.calls ++ [.Update p.ID] })) := by
  unfold Repo.Update
  simp only [pickExecutor, TxFromContext, World.view, World.note, World.put, if_true]
  cases f.updatePlayer with
  | some e => exact Or.inl ⟨_, _, rfl, rfl⟩
  | none =>
    cases hp : w.pending with
    | none => exact Or.inl ⟨_, _, rfl, rfl⟩
    | some d =>
      dsimp only
      by_cases h0 : rowsAffected p d.players = 0
      · rw [if_pos h0]
        exact Or.inl ⟨_, _, rfl, rfl⟩
      · rw [if_neg h0]
        refine Or.inr ⟨d, rfl, ?_, rfl⟩
        by_contra hno
        exact h0 ((rowsAffected_eq_zero_iff p d.players).mpr hno)

/-- `EventsRepo.Append` through the transaction: an error with the committed tables
untouched, or `nil` with one more event pending. -/
theorem EventsRepo.Append_tx (f : Faults) (ev : PlayerStatusEvent) (w : World) :
    (∃ e w1, EventsRepo.Append f .withTx ev w = (some e, w1) ∧ w1.committed = w.committed)
    ∨ (∃ d, w.pending = some d
        ∧ EventsRepo.Append f .withTx ev w
          = (Option.none, { committed := w.committed,
                            pending := some { d with events := d.events ++ [eventToRow ev] },
                            calls := w.calls ++ [.Append ev.ID] })) := by
  unfold EventsRepo.Append
  simp only [pickExecutor, TxFromContext, World.view, World.note, World.put, if_true]
  cases f.insertEvent with
  | some e => exact Or.inl ⟨_, _, rfl, rfl⟩
  | none =>
    cases hp : w.pending with
    | none => exact Or.inl ⟨_, _, rfl, rfl⟩
    | some d => exact Or.inr ⟨d, rfl, rfl⟩

/-- `Enqueue` through the transaction: an error with the committed tables untouched, or
`nil` with one more message pending. -/
theorem OutboxRepo.Enqueue_tx (f : Faults) (m : OutboxMessage) (w : World) :
    (∃ e w1, OutboxRepo.Enqueue f .withTx m w = (some e, w1) ∧ w1.committed = w.committed)
    ∨ (∃ d, w.pending = some d
        ∧ OutboxRepo.Enqueue f .withTx m w
          = (Option.none, { committed := w.committed,
                            pending := some { d with outbox := d.outbox ++ [messageToRow m] },
                            calls := w.calls ++ [.Enqueue m.ID] })) := by
  unfold OutboxRepo.Enqueue
  simp only [pickExecutor, TxFromContext, World.view, World.note, World.put, if_true]
  cases f.insertOutbox with
  | some e => exact Or.inl ⟨_, _, rfl, rfl⟩
  | none =>
    cases hp : w.pending with
    | none => exact Or.inl ⟨_, _, rfl, rfl⟩
    | some d => exact Or.inr ⟨d, rfl, rfl⟩

theorem changeStatusTx_spec (env : Env) (s : Service) (f : Faults) (now : Time)
    (evID msgID : UUID) (dst : Status) (cmd : ChangeStatusCmd) (w : World) :
    ChangeStatusTxPost env s now evID msgID dst cmd w
      (Service.changeStatusTx env s f now evID msgID dst cmd .withTx w) := by
  unfold Service.changeStatusTx
  rcases Repo.GetByID_tx env f cmd.PlayerID w with ⟨e, hg⟩ | ⟨d0, r0, hp, hfind, hg⟩
  · rw [hg]; exact rfl
  rw [hg]; dsimp only
  rcases hc : (rowToPlayer env r0).ChangeStatus evID dst cmd.Reason cmd.Actor now with ⟨p, rc⟩
  cases rc with
  | error e => exact rfl
  | ok ev =>
    dsimp only
    rcases Repo.Update_tx env f p (w.note (.GetByID cmd.PlayerID)) with
      ⟨e, w2, hu, hcu⟩ | ⟨d1, hp1, hex, hu⟩
    · rw [hu]; exact hcu
    rw [hu]; dsimp only
    have hd1 : d1 = d0 := by
      have : (w.note (.GetByID cmd.PlayerID)).pending = some d0 := hp
      rw [this] at hp1
      exact (Option.some.inj hp1).symm
    subst hd1
    rcases EventsRepo.Append_tx f ev
        { committed := (w.note (.GetByID cmd.PlayerID)).committed,
          pending := some { d1 with players := updateRows env p d1.players },
          calls := (w.note (.GetByID cmd.PlayerID)).calls ++ [.Update p.ID] } with
      ⟨e, w3, ha, hca⟩ | ⟨d2, hp2, ha⟩
    · rw [ha]; exact hca
    rw [ha]; dsimp only
    cases Option.some.inj hp2
    cases hob : s.outbox with
    | false =>
      simp only [Bool.false_eq_true, if_false]
      exact ⟨rfl, d1, r0, hp, hfind, hc, hex, by simp [hob]⟩
    | true =>
      simp only [if_true]
      unfold NewOutboxMessage
      cases f.marshal with
      | some e => exact rfl
      | none =>
        dsimp only
        rcases OutboxRepo.Enqueue_tx f
            { ID := msgID, Aggregate := "player", AggregateID := p.ID,
              Typ := "player.status.changed", Key := p.ID.String,
              Payload := env.jsonObject (statusPayload env ev), CreatedAt := now }
            { committed := (w.note (.GetByID cmd.PlayerID)).committed,
              pending := some { players := updateRows env p d1.players,
                                events := d1.events ++ [eventToRow ev], outbox := d1.outbox },
              calls := (w.note (.GetByID cmd.PlayerID)).calls ++ [.Update p.ID]
                ++ [.Append ev.ID] } with
          ⟨e, w4, he, hce⟩ | ⟨d3, hp3, he⟩
        · rw [he]; exact hce
        rw [he]
        cases Option.some.inj hp3
        exact ⟨rfl, d1, r0, hp, hfind, hc, hex, by simp [hob]⟩

theorem beginTx_cases (f : Faults) (w : World) :
    (∃ e, BeginTx f w = (some e, w.note .BeginTx))
    ∨ (f.beginTx = Option.none
        ∧ BeginTx f w = (Option.none, { committed := w.committed, pending := some w.committed,
                                        calls := w.calls ++ [.BeginTx] })) := by
  unfold BeginTx
  cases h : f.beginTx with
  | some e => exact Or.inl ⟨_, rfl⟩
  | none => exact Or.inr ⟨rfl, rfl⟩

theorem commit_cases (f : Faults) (w : World) (d : DB) (hp : w.pending = some d) :
    (∃ e w1, Commit f w = (some e, w1) ∧ w1.committed = w.committed)
    ∨ (f.commit = Option.none
        ∧ Commit f w = (Option.none, { committed := d, pending := Option.none,
                                       calls := w.calls ++ [.Commit] })) := by
  unfold Commit
  cases h : f.commit with
  | some e => exact Or.inl ⟨_, _, rfl, rfl⟩
  | none =>
    refine Or.inr ⟨rfl, ?_⟩
    simp only [World.note, hp]

theorem rollback_committed (f : Faults) (w : World) :
    (Rollback f w).2.committed = w.committed := rfl

theorem changeStatus_post (env : Env) (s : Service) (f : Faults) (now : Time)
    (evID msgID : UUID) (cmd : ChangeStatusCmd) (w : World) :
    ChangeStatusPost env s now msgID w (Service.ChangeStatus env s f now evID msgID cmd w) := by
  unfold Service.ChangeStatus
  rcases hparse : ParseStatus (ToLower env (TrimSpace cmd.ToStatus)) with ⟨dst, perr⟩
  cases perr with
  | some e => exact rfl
  | none =>
    dsimp only
    unfold UnitOfWork.WithinTx
    rcases beginTx_cases f w with ⟨e, hb⟩ | ⟨_, hb⟩
    · rw [hb]; exact rfl
    rw [hb]; dsimp only
    have spec := changeStatusTx_spec env s f now evID msgID dst cmd
      { committed := w.committed, pending := some w.committed, calls := w.calls ++ [.BeginTx] }
    rcases htx : Service.changeStatusTx env s f now evID msgID dst cmd .withTx
      { committed := w.committed, pending := some w.committed,
        calls := w.calls ++ [.BeginTx] } with ⟨r, w2⟩
    rw [htx] at spec
    cases r with
    | error e =>
      dsimp only
      exact spec
    | ok pe =>
      obtain ⟨p, ev⟩ := pe
      obtain ⟨hcomm, d0, r0, hp0, _, hcs, hex, hpend⟩ := spec
      cases Option.some.inj hp0
      dsimp only
      rcases commit_cases f w2 _ hpend with ⟨e, w3, hc, hcc⟩ | ⟨_, hc⟩
      · rw [hc]
        exact hcc.trans hcomm
      · rw [hc]
        refine ⟨rfl, hex, ?_⟩
        rw [(changeStatus_ok _ _ _ _ _ _ _ _ hcs).2.1, (changeStatus_ok _ _ _ _ _ _ _ _ hcs).1]

/-- C3. Whatever fails in a call of `Service.ChangeStatus` (parsing the status, beginning
the transaction, loading the player, the aggregate's `ChangeStatus`, the update, the event
append, building or enqueuing the outbox message, the commit), when the call returns an
error the committed players, events and outbox are what they were before the call; and
when it returns `nil` the updated player rows, the event and, with an outbox configured, the
message are all committed. -/
theorem C3_changeStatus_all_or_nothing (env : Env) (s : Service) (f : Faults) (now : Time)
    (evID msgID : UUID) (cmd : ChangeStatusCmd) (w : World) :
    match Service.ChangeStatus env s f now evID msgID cmd w with
    | (.error _, w1) => w1.committed = w.committed
    | (.ok (p, ev), w1) =>
      w1.committed =
        { players := updateRows env p w.committed.players
          events := w.committed.events ++ [eventToRow ev]
          outbox :=
            if s.outbox then
              w.committed.outbox ++ [messageToRow
                { ID := msgID, Aggregate := "player", AggregateID := p.ID,
                  Typ := "player.status.changed", Key := p.ID.String,
                  Payload := env.jsonObject (statusPayload env ev), CreatedAt := now }]
            else w.committed.outbox }
      ∧ (∃ r ∈ w.committed.players, r.id = p.ID ∧ r.version = wrapInt64 (p.Version - 1))
      ∧ ev.PlayerID = p.ID :=
  changeStatus_post env s f now evID msgID cmd w

/-! ## The service when no collaborator fails -/

theorem Repo.GetByID_found (env : Env) (f : Faults) (ctx : Ctx) (id : UUID) (w : World) (d : DB)
    (r : PlayerRow) (hf : f.selectPlayer = Option.none)
    (hview : w.view (pickExecutor ctx) = some d)
    (hfind : d.players.find? (fun r => r.id == id) = some r) :
    Repo.GetByID env f ctx id w = (.ok (rowToPlayer env r), w.note (.GetByID id)) := by
  unfold Repo.GetByID
  simp only [hf, view_note, hview, hfind]

theorem EventsRepo.Append_exec (f : Faults) (ctx : Ctx) (ev : PlayerStatusEvent) (w : World)
    (d : DB) (hf : f.insertEvent = Option.none) (hview : w.view (pickExecutor ctx) = some d) :
    EventsRepo.Append f ctx ev w
      = (Option.none, (w.note (.Append ev.ID)).put (pickExecutor ctx)
          { d with events := d.events ++ [eventToRow ev] }) := by
  unfold EventsRepo.Append
  simp only [hf, view_note, hview]

theorem OutboxRepo.Enqueue_exec (f : Faults) (ctx : Ctx) (m : OutboxMessage) (w : World)
    (d : DB) (hf : f.insertOutbox = Option.none) (hview : w.view (pickExecutor ctx) = some d) :
    OutboxRepo.Enqueue f ctx m w
      = (Option.none, (w.note (.Enqueue m.ID)).put (pickExecutor ctx)
          { d with outbox := d.outbox ++ [messageToRow m] }) := by
  unfold OutboxRepo.Enqueue
  simp only [hf, view_note, hview]

theorem parseStatus_ok (v : String) (dst : Status)
    (h : ParseStatus v = (dst, Option.none)) :
    dst = StatusActive ∨ dst = StatusBlocked ∨ dst = StatusFrozen ∨ dst = StatusClosed := by
  unfold ParseStatus at h
  split at h
  · exact Or.inl (Prod.mk.inj h).1.symm
  · split at h
    · exact Or.inr (Or.inl (Prod.mk.inj h).1.symm)
    · split at h
      · exact Or.inr (Or.inr (Or.inl (Prod.mk.inj h).1.symm))
      · split at h
        · exact Or.inr (Or.inr (Or.inr (Prod.mk.inj h).1.symm))
        · simp at h

/-- With no fault, the function handed over by `Service.ChangeStatus` returns the player
and event of the aggregate's `ChangeStatus` whenever that succeeds on the row found and
the update finds its row. -/
theorem changeStatusTx_no_fault (env : Env) (s : Service) (now : Time) (evID msgID : UUID)
    (dst : Status) (cmd : ChangeStatusCmd) (w : World) (d0 : DB) (r0 : PlayerRow) (q : Player)
    (ev : PlayerStatusEvent) (hp : w.pending = some d0)
    (hrow : d0.players.find? (fun r => r.id == cmd.PlayerID) = some r0)
    (hcs : (rowToPlayer env r0).ChangeStatus evID dst cmd.Reason cmd.Actor now = (q, .ok ev))
    (hex : rowsAffected q d0.players ≠ 0) :
    (Service.changeStatusTx env s Faults.none now evID msgID dst cmd .withTx w).1
      = .ok (q, ev) := by
  simp only [Service.changeStatusTx, Repo.GetByID, Repo.Update, EventsRepo.Append,
    OutboxRepo.Enqueue, NewOutboxMessage, Faults.none, pickExecutor, TxFromContext,
    World.view, World.note, World.put, hp, hrow, hcs, hex, if_true, if_false]
  cases s.outbox <;> simp

/-- With no fault, a row under the id whose status differs from the parsed target and a
reason that is not blank, `Service.ChangeStatus` returns the changed player and its event. -/
theorem changeStatus_no_fault (env : Env) (s : Service) (now : Time) (evID msgID : UUID)
    (cmd : ChangeStatusCmd) (w : World) (r0 : PlayerRow) (dst : Status)
    (hrow : w.committed.players.find? (fun r => r.id == cmd.PlayerID) = some r0)
    (hv : isInt64 r0.version)
    (hparse : ParseStatus (ToLower env (TrimSpace cmd.ToStatus)) = (dst, Option.none))
    (hdiff : dst.code ≠ r0.status)
    (hreason : TrimSpace cmd.Reason ≠ "") :
    ∃ q ev w1, Service.ChangeStatus env s Faults.none now evID msgID cmd w = (.ok (q, ev), w1)
      ∧ (rowToPlayer env r0).ChangeStatus evID dst cmd.Reason cmd.Actor now = (q, .ok ev) := by
  have hdst := parseStatus_ok _ _ hparse
  have hne : dst ≠ StatusUnknown := by
    rcases hdst with h | h | h | h <;> subst h <;> decide
  have hne2 : dst ≠ (rowToPlayer env r0).Status := by
    intro h
    apply hdiff
    rw [h]
    rfl
  obtain ⟨q, ev, hcs⟩ : ∃ q ev,
      (rowToPlayer env r0).ChangeStatus evID dst cmd.Reason cmd.Actor now = (q, .ok ev) :=
    ⟨_, _, changeStatus_of_guards (rowToPlayer env r0) evID dst cmd.Reason cmd.Actor now
      hne hne2 hreason⟩
  have hq := (changeStatus_ok _ _ _ _ _ _ _ _ hcs).1
  have hex : rowsAffected q w.committed.players ≠ 0 := by
    rw [Ne, rowsAffected_eq_zero_iff]
    intro h
    apply h
    refine ⟨r0, List.mem_of_find?_eq_some hrow, ?_, ?_⟩
    · rw [hq]; rfl
    · rw [hq]
      exact (wrapInt64_pred_succ r0.version hv).symm
  have htx := changeStatusTx_no_fault env s now evID msgID dst cmd
    { committed := w.committed, pending := some w.committed, calls := w.calls ++ [.BeginTx] }
    w.committed r0 q ev rfl hrow hcs hex
  have spec := changeStatusTx_spec env s Faults.none now evID msgID dst cmd
    { committed := w.committed, pending := some w.committed, calls := w.calls ++ [.BeginTx] }
  refine ⟨q, ev, ?_⟩
  unfold Service.ChangeStatus
  rw [hparse]
  dsimp only
  unfold UnitOfWork.WithinTx
  rcases beginTx_cases Faults.none w with ⟨e, hb⟩ | ⟨_, hb⟩
  · simp [BeginTx, Faults.none] at hb
  rw [hb]
  dsimp only
  rcases hfull : Service.changeStatusTx env s Faults.none now evID msgID dst cmd .withTx
      { committed := w.committed, pending := some w.committed,
        calls := w.calls ++ [.BeginTx] } with ⟨r, w2⟩
  rw [hfull] at htx spec
  dsimp only at htx
  subst htx
  obtain ⟨_, d0, _, _, _, _, _, hpend⟩ := spec
  dsimp only
  rcases commit_cases Faults.none w2 _ hpend with ⟨e, w3, hc, _⟩ | ⟨_, hc⟩
  · simp [Commit, Faults.none, World.note, hpend] at hc
  · rw [hc]
    exact ⟨_, rfl, hcs⟩

/-- C10. The committed tables hold a row under the command's player id, at version `v`
and status `s`; the command's status string parses to a status other than `s` and its
reason is not blank. Then, no collaborator failing, `Service.ChangeStatus` succeeds; the
row under that id afterwards has the target status and version `v + 1` (the `int64`
increment, equal to `v + 1` below the upper bound of the type); and the events table has
gained exactly one row, with that player's id, `from = s`, `to` the target, and the
command's reason and actor. -/
theorem C10_changeStatus_service (env : Env) (s : Service) (now : Time) (evID msgID : UUID)
    (cmd : ChangeStatusCmd) (w : World) (r0 : PlayerRow) (dst : Status)
    (hrow : w.committed.players.find? (fun r => r.id == cmd.PlayerID) = some r0)
    (hv : isInt64 r0.version)
    (hparse : ParseStatus (ToLower env (TrimSpace cmd.ToStatus)) = (dst, Option.none))
    (hdiff : dst.code ≠ r0.status)
    (hreason : ¬ ∀ c ∈ cmd.Reason.data, isSpace c = true) :
    ∃ q ev w1,
      Service.ChangeStatus env s Faults.none now evID msgID cmd w = (.ok (q, ev), w1)
      ∧ q.Status = dst ∧ q.Version = wrapInt64 (r0.version + 1)
      ∧ (∃ r1, w1.committed.players.find? (fun r => r.id == cmd.PlayerID) = some r1
          ∧ r1.status = dst.code ∧ r1.version = wrapInt64 (r0.version + 1))
      ∧ w1.committed.events = w.committed.events ++
          [{ id := evID, player_id := cmd.PlayerID, from_status := r0.status,
             to_status := dst.code, reason := cmd.Reason, actor_type := cmd.Actor.code,
             created_at := now }]
      ∧ (r0.version ≠ maxInt64 → wrapInt64 (r0.version + 1) = r0.version + 1) := by
  have hr : TrimSpace cmd.Reason ≠ "" := fun h => hreason ((trimSpace_eq_empty_iff _).mp h)
  obtain ⟨q, ev, w1, hres, hcs⟩ :=
    changeStatus_no_fault env s now evID msgID cmd w r0 dst hrow hv hparse hdiff hr
  have post := changeStatus_post env s Faults.none now evID msgID cmd w
  rw [hres] at post
  obtain ⟨hcomm, _, _⟩ := post
  obtain ⟨hq, hev, _, _, _⟩ := changeStatus_ok _ _ _ _ _ _ _ _ hcs
  have hid : r0.id = cmd.PlayerID := by
    have := List.find?_some hrow
    simpa using this
  have hqv : q.Version = wrapInt64 (r0.version + 1) := by rw [hq]; rfl
  have hqs : q.Status = dst := by rw [hq]
  have hm : updateMatches q r0 = true := by
    rw [updateMatches_iff, hqv, wrapInt64_pred_succ _ hv]
    exact ⟨by rw [hq]; rfl, rfl⟩
  refine ⟨q, ev, w1, hres, hqs, hqv, ⟨setColumns env q r0, ?_, ?_, hqv⟩, ?_,
    fun hm => wrapInt64_succ _ hv hm⟩
  · rw [hcomm]
    show (updateRows env q w.committed.players).find? (fun r => r.id == cmd.PlayerID) = _
    rw [updateRows_find, hrow]
    simp [hm]
  · show q.Status.code = dst.code
    rw [hqs]
  · rw [hcomm, hev]
    show w.committed.events ++ [_] = _
    rw [← hid]
    rfl

/-- C10, at a concrete input: the sample player, active at version 1, is blocked for
`"fraud"` by an administrator; the stored row goes to status blocked and version 2, and
one event from active to blocked is appended. -/
theorem C10_changeStatus_service_witness :
    ∃ q ev w1,
      Service.ChangeStatus Env.sample ⟨true⟩ Faults.none 200 ⟨9⟩ ⟨11⟩ sampleCmd sampleWorld
        = (.ok (q, ev), w1)
      ∧ q.Version = 2
      ∧ w1.committed.players.map (fun r => (r.id, r.status, r.version)) = [(⟨7⟩, 2, 2)]
      ∧ w1.committed.events =
          [{ id := ⟨9⟩, player_id := ⟨7⟩, from_status := 1, to_status := 2, reason := "fraud",
             actor_type := 2, created_at := 200 }] := by
  obtain ⟨q, ev, w1, h, _, hver, _, hevents, _⟩ :=
    C10_changeStatus_service Env.sample ⟨true⟩ 200 ⟨9⟩ ⟨11⟩ sampleCmd sampleWorld
      (playerToRow Env.sample samplePlayer) StatusBlocked rfl (by decide) rfl (by decide)
      (by decide)
  refine ⟨q, ev, w1, h, hver.trans (by decide), ?_, hevents⟩
  have hw : w1 = (Service.ChangeStatus Env.sample ⟨true⟩ Faults.none 200 ⟨9⟩ ⟨11⟩ sampleCmd
      sampleWorld).2 := by rw [h]
  rw [hw]
  rfl

/-! ## `Service.CreatePlayer` -/

/-- A read through the transaction leaves the committed and the pending tables alone. -/
theorem Repo.GetByID_world (env : Env) (f : Faults) (ctx : Ctx) (id : UUID) (w : World) :
    (Repo.GetByID env f ctx id w).2 = w.note (.GetByID id) := by
  unfold Repo.GetByID
  dsimp only
  split
  · rfl
  · split
    · rfl
    · split <;> rfl

theorem Repo.GetByEmail_world (env : Env) (f : Faults) (ctx : Ctx) (email : String)
    (w : World) :
    (Repo.GetByEmail env f ctx email w).2.committed = w.committed
    ∧ (Repo.GetByEmail env f ctx email w).2.pending = w.pending := by
  unfold Repo.GetByEmail
  dsimp only
  split
  · exact ⟨rfl, rfl⟩
  · split
    · exact ⟨rfl, rfl⟩
    · split
      · exact ⟨rfl, rfl⟩
      · rw [Repo.GetByID_world]
        exact ⟨rfl, rfl⟩

/-- `Repo.Create` through the transaction: an error with the committed tables untouched,
or `nil` with one more player row pending. -/
theorem Repo.Create_tx (env : Env) (f : Faults) (p : Player) (w : World) :
    (∃ e w1, Repo.Create env f .withTx p w = (some e, w1) ∧ w1.committed = w.committed)
    ∨ (∃ d, w.pending = some d
        ∧ Repo.Create env f .withTx p w
          = (Option.none, { committed := w.committed,
                            pending := some { d with players := d.players ++ [playerToRow env p] },
                            calls := w.calls ++ [.Create p.ID] })) := by
  unfold Repo.Create
  simp only [pickExecutor, TxFromContext, World.view, World.note, World.put, if_true]
  cases f.insertPlayer with
  | some e => exact Or.inl ⟨_, _, rfl, rfl⟩
  | none =>
    cases hp : w.pending with
    | none => exact Or.inl ⟨_, _, rfl, rfl⟩
    | some d =>
      dsimp only
      cases hu : violatesUnique (playerToRow env p) d.players with
      | true => exact Or.inl ⟨_, _, rfl, rfl⟩
      | false => exact Or.inr ⟨d, rfl, rfl⟩

theorem createTx_spec (env : Env) (f : Faults) (p : Player) (w : World) :
    CreateTxPost env p w (Service.createTx env f p .withTx w) := by
  unfold Service.createTx
  have hw := Repo.GetByEmail_world env f .withTx p.Email w
  rcases hg : Repo.GetByEmail env f .withTx p.Email w with ⟨r, w1⟩
  rw [hg] at hw
  dsimp only at hw
  cases r with
  | ok q => exact hw.1
  | error e =>
    dsimp only
    by_cases hnf : e.Is ErrNotFound = true
    · rw [if_neg (by simpa using hnf)]
      rcases Repo.Create_tx env f p w1 with ⟨e1, w2, hc, hcc⟩ | ⟨d, hp, hc⟩
      · rw [hc]
        exact hcc.trans hw.1
      · rw [hc]
        exact ⟨hw.1, d, hw.2 ▸ hp, rfl⟩
    · rw [if_pos (by simpa using hnf)]
      exact hw.1

theorem createPlayer_post (env : Env) (s : Service) (f : Faults) (now : Time) (id : UUID)
    (cmd : CreatePlayerCmd) (w : World) :
    CreatePlayerPost env now id cmd w (Service.CreatePlayer env s f now id cmd w) := by
  unfold Service.CreatePlayer
  cases hb : Service.buildPlayer env now id cmd with
  | error e => exact rfl
  | ok p =>
    dsimp only
    unfold UnitOfWork.WithinTx
    rcases beginTx_cases f w with ⟨e, hbt⟩ | ⟨_, hbt⟩
    · rw [hbt]; exact rfl
    rw [hbt]; dsimp only
    have spec := createTx_spec env f p
      { committed := w.committed, pending := some w.committed, calls := w.calls ++ [.BeginTx] }
    rcases htx : Service.createTx env f p .withTx
      { committed := w.committed, pending := some w.committed,
        calls := w.calls ++ [.BeginTx] } with ⟨r, w2⟩
    rw [htx] at spec
    cases r with
    | error e => exact spec
    | ok u =>
      obtain ⟨hcomm, d0, hp0, hpend⟩ := spec
      cases Option.some.inj hp0
      dsimp only
      rcases commit_cases f w2 _ hpend with ⟨e, w3, hc, hcc⟩ | ⟨_, hc⟩
      · rw [hc]
        exact hcc.trans hcomm
      · rw [hc]
        exact ⟨hb, rfl⟩

/-- The player built from a valid command carries the normalised email. -/
theorem buildPlayer_email (env : Env) (now : Time) (id : UUID) (cmd : CreatePlayerCmd)
    (p : Player) (h : Service.buildPlayer env now id cmd = .ok p) :
    p.Email = TrimSpace (ToLower env cmd.Email) := by
  unfold Service.buildPlayer at h
  split at h
  · simp at h
  · split at h
    · simp at h
    · dsimp only at h
      split at h
      · simp at h
      · rw [newPlayer_ok _ _ _ _ _ h]

/-- When the pending tables hold a row with the player's email, the function handed over
by `Service.CreatePlayer` never returns `nil`: the lookup cannot answer "not found", so the
insert is not reached. When the two lookup queries go through the error is `ErrConflict`. -/
theorem createTx_conflict (env : Env) (f : Faults) (p : Player) (w : World) (d : DB)
    (hp : w.pending = some d) (hex : ∃ r ∈ d.players, r.email = p.Email) :
    ∃ e, (Service.createTx env f p .withTx w).1 = .error e
      ∧ (f.selectEmail = Option.none → f.selectPlayer = Option.none →
          e = .sentinel ErrConflict) := by
  obtain ⟨r, hr, hre⟩ := hex
  have h1 : (d.players.find? (fun r => r.email == p.Email)).isSome = true := by
    rw [List.find?_isSome]
    exact ⟨r, hr, by simpa using hre⟩
  obtain ⟨r1, hr1⟩ := Option.isSome_iff_exists.mp h1
  have h2 : (d.players.find? (fun r => r.id == r1.id)).isSome = true := by
    rw [List.find?_isSome]
    exact ⟨r1, List.mem_of_find?_eq_some hr1, by simp⟩
  obtain ⟨r2, hr2⟩ := Option.isSome_iff_exists.mp h2
  cases hq1 : f.selectEmail with
  | some e1 =>
    refine ⟨.storage e1, ?_, fun h => by simp at h⟩
    simp [Service.createTx, Repo.GetByEmail, hq1, Err.Is]
  | none =>
    cases hq2 : f.selectPlayer with
    | some e2 =>
      refine ⟨.storage e2, ?_, fun _ h => by simp at h⟩
      simp [Service.createTx, Repo.GetByEmail, Repo.GetByID, pickExecutor, TxFromContext,
        World.view, World.note, hq1, hq2, hp, hr1, Err.Is]
    | none =>
      refine ⟨.sentinel ErrConflict, ?_, fun _ _ => rfl⟩
      simp only [Service.createTx, Repo.GetByEmail, Repo.GetByID, pickExecutor, TxFromContext,
        World.view, World.note, hq1, hq2, hp, hr1, hr2, if_true]

/-- C8. A first `CreatePlayer` has succeeded; a second command is valid and its email has
the same normal form (lower-cased, trimmed) as the first one's. Then the second call
fails and the committed tables, the players among them, are as the first call left them;
and when its transaction begins and its two lookup queries go through, the error it
fails with is `ErrConflict` itself. -/
theorem C8_duplicate_email_conflict (env : Env) (s : Service) (f1 f2 : Faults)
    (now1 now2 : Time) (id1 id2 : UUID) (cmd1 cmd2 : CreatePlayerCmd) (w w1 : World)
    (p1 p2 : Player)
    (hfirst : Service.CreatePlayer env s f1 now1 id1 cmd1 w = (.ok p1, w1))
    (hvalid : Service.buildPlayer env now2 id2 cmd2 = .ok p2)
    (hsame : TrimSpace (ToLower env cmd1.Email) = TrimSpace (ToLower env cmd2.Email)) :
    ∃ e w2, Service.CreatePlayer env s f2 now2 id2 cmd2 w1 = (.error e, w2)
      ∧ w2.committed = w1.committed
      ∧ w2.committed.players = w.committed.players ++ [playerToRow env p1]
      ∧ (f2.beginTx = Option.none → f2.selectEmail = Option.none →
          f2.selectPlayer = Option.none → e = .sentinel ErrConflict) := by
  have post1 := createPlayer_post env s f1 now1 id1 cmd1 w
  rw [hfirst] at post1
  obtain ⟨hb1, hc1⟩ := post1
  have he1 := buildPlayer_email env now1 id1 cmd1 p1 hb1
  have he2 := buildPlayer_email env now2 id2 cmd2 p2 hvalid
  have hplayers : w1.committed.players = w.committed.players ++ [playerToRow env p1] := by
    rw [hc1]
  have hex : ∃ r ∈ w1.committed.players, r.email = p2.Email := by
    refine ⟨playerToRow env p1, ?_, ?_⟩
    · rw [hplayers]
      simp
    · show p1.Email = p2.Email
      rw [he1, he2, hsame]
  obtain ⟨e, hconf, hkind⟩ := createTx_conflict env f2 p2
    { committed := w1.committed, pending := some w1.committed, calls := w1.calls ++ [.BeginTx] }
    w1.committed rfl hex
  have spec := createTx_spec env f2 p2
    { committed := w1.committed, pending := some w1.committed, calls := w1.calls ++ [.BeginTx] }
  unfold Service.CreatePlayer
  rw [hvalid]
  dsimp only
  unfold UnitOfWork.WithinTx
  rcases beginTx_cases f2 w1 with ⟨e0, hbt⟩ | ⟨hb0, hbt⟩
  · rw [hbt]
    refine ⟨e0, _, rfl, rfl, hplayers, ?_⟩
    intro hb
    unfold BeginTx at hbt
    rw [hb] at hbt
    simp at hbt
  rw [hbt]
  dsimp only
  rcases htx : Service.createTx env f2 p2 .withTx
      { committed := w1.committed, pending := some w1.committed,
        calls := w1.calls ++ [.BeginTx] } with ⟨r, w2⟩
  rw [htx] at hconf spec
  dsimp only at hconf
  subst hconf
  dsimp only
  have hcomm : (Rollback f2 w2).2.committed = w1.committed := spec
  exact ⟨e, _, rfl, hcomm, hcomm ▸ hplayers, fun _ h1 h2 => hkind h1 h2⟩

/-- C8, at concrete inputs: on empty tables `"A@B.com "` is created; a second command
for another person with the email `"a@b.com"` is turned away with `ErrConflict`, and the
table still holds one player. -/
theorem C8_duplicate_email_conflict_witness :
    ∃ w2, Service.CreatePlayer Env.sample ⟨true⟩ Faults.none 101 ⟨8⟩ sampleCreateAgain
        (Service.CreatePlayer Env.sample ⟨true⟩ Faults.none 100 ⟨7⟩ sampleCreate emptyWorld).2
        = (.error (.sentinel ErrConflict), w2)
      ∧ w2.committed.players.map (fun r => (r.id, r.email)) = [(⟨7⟩, "a@b.com")] := by
  obtain ⟨e, w2, h, _, hp, hk⟩ := C8_duplicate_email_conflict Env.sample ⟨true⟩ Faults.none
    Faults.none 100 101 ⟨7⟩ ⟨8⟩ sampleCreate sampleCreateAgain emptyWorld
    (Service.CreatePlayer Env.sample ⟨true⟩ Faults.none 100 ⟨7⟩ sampleCreate emptyWorld).2
    createdPlayer createdAgain rfl rfl rfl
  rw [hk rfl rfl rfl] at h
  exact ⟨w2, h, by rw [hp]; rfl⟩

/-- C9, evaluated: the lookup by email finds nobody, the `INSERT` is refused as a duplicate
key, and `Service.CreatePlayer` hands back that storage error as it came, which is not
`ErrConflict`; nothing is committed. The same happens, with no fault at all, when the new id
is that of a stored player. -/
theorem C9_duplicate_key_not_mapped :
    (Service.CreatePlayer Env.sample ⟨true⟩ insertRefused 101 ⟨8⟩ sampleCreateOther
        sampleWorld).1 = .error (.storage duplicateKey)
    ∧ Err.Is (.storage duplicateKey) ErrConflict = false
    ∧ (Service.CreatePlayer Env.sample ⟨true⟩ insertRefused 101 ⟨8⟩ sampleCreateOther
        sampleWorld).2.committed = sampleWorld.committed
    ∧ (Service.CreatePlayer Env.sample ⟨true⟩ Faults.none 101 ⟨7⟩ sampleCreateOther
        sampleWorld).1 = .error (.storage duplicateKey) :=
  ⟨rfl, rfl, rfl, rfl⟩

/-! ## The state machine and the validity predicate -/

theorem address_validate_none_iff (env : Env) (a : Address) :
    a.Validate env = Option.none ↔
      (a.CountryCode = "" ∨ reCountry.MatchString a.CountryCode = true)
      ∧ (a.Locale = "" ∨ reLocale.MatchString a.Locale = true)
      ∧ (a.TimeZone = "" ∨ env.loadLocation a.TimeZone = true) := by
  unfold Address.Validate
  by_cases h1 : a.CountryCode ≠ "" ∧ ¬ reCountry.MatchString a.CountryCode = true
  · rw [if_pos h1]
    refine ⟨fun h => (by cases h), fun h => ?_⟩
    rcases h.1 with h | h
    · exact absurd h h1.1
    · exact absurd h h1.2
  · rw [if_neg h1]
    by_cases h2 : a.Locale ≠ "" ∧ ¬ reLocale.MatchString a.Locale = true
    · rw [if_pos h2]
      refine ⟨fun h => (by cases h), fun h => ?_⟩
      rcases h.2.1 with h | h
      · exact absurd h h2.1
      · exact absurd h h2.2
    · rw [if_neg h2]
      by_cases h3 : a.TimeZone ≠ "" ∧ ¬ env.loadLocation a.TimeZone = true
      · rw [if_pos h3]
        refine ⟨fun h => (by cases h), fun h => ?_⟩
        rcases h.2.2 with h | h
        · exact absurd h h3.1
        · exact absurd h h3.2
      · rw [if_neg h3]
        simp only [true_iff]
        refine ⟨?_, ?_, ?_⟩
        · by_cases h : a.CountryCode = ""
          · exact Or.inl h
          · exact Or.inr (by_contra fun hn => h1 ⟨h, hn⟩)
        · by_cases h : a.Locale = ""
          · exact Or.inl h
          · exact Or.inr (by_contra fun hn => h2 ⟨h, hn⟩)
        · by_cases h : a.TimeZone = ""
          · exact Or.inl h
          · exact Or.inr (by_contra fun hn => h3 ⟨h, hn⟩)

theorem player_validate_none_iff (env : Env) (p : Player) :
    p.Validate env = Option.none ↔
      (p.Email ≠ "" ∧ reEmail.MatchString p.Email = true)
      ∧ (p.Phone = "" ∨ rePhone.MatchString p.Phone = true)
      ∧ p.Status ≠ StatusUnknown
      ∧ p.Address.Validate env = Option.none := by
  unfold Player.Validate
  by_cases h1 : p.Email = "" ∨ ¬ reEmail.MatchString p.Email = true
  · rw [if_pos h1]
    refine ⟨fun h => (by cases h), fun h => ?_⟩
    rcases h1 with h1 | h1
    · exact absurd h1 h.1.1
    · exact absurd h.1.2 h1
  · rw [if_neg h1]
    have he : p.Email ≠ "" ∧ reEmail.MatchString p.Email = true :=
      ⟨fun h => h1 (Or.inl h), by_contra fun h => h1 (Or.inr h)⟩
    by_cases h2 : p.Phone ≠ "" ∧ ¬ rePhone.MatchString p.Phone = true
    · rw [if_pos h2]
      refine ⟨fun h => (by cases h), fun h => ?_⟩
      rcases h.2.1 with h | h
      · exact absurd h h2.1
      · exact absurd h h2.2
    · rw [if_neg h2]
      have hp : p.Phone = "" ∨ rePhone.MatchString p.Phone = true := by
        by_cases h : p.Phone = ""
        · exact Or.inl h
        · exact Or.inr (by_contra fun hn => h2 ⟨h, hn⟩)
      by_cases h3 : p.Status = StatusUnknown
      · rw [if_pos h3]
        exact ⟨fun h => (by cases h), fun h => absurd h3 h.2.2.1⟩
      · rw [if_neg h3]
        cases ha : p.Address.Validate env with
        | none => simp [he, hp, h3]
        | some e => simp

/-- What `NewPlayer` returns satisfies `Validate`. -/
theorem newPlayer_valid (env : Env) (id : UUID) (params : CreateParams) (now : Time)
    (pl : Player) (h : NewPlayer env id params now = .ok pl) :
    pl.Validate env = Option.none := by
  unfold NewPlayer at h
  simp only at h
  split at h
  · simp at h
  · split at h
    · simp at h
    · split at h
      · simp at h
      · split at h
        · simp at h
        · rename_i hv
          simp only [Except.ok.injEq] at h
          rw [← h]
          exact hv

/-- The player after any call of `ChangeStatus` satisfies `Validate` if the one before did. -/
theorem changeStatus_valid (env : Env) (p : Player) (evID : UUID) (dst : Status)
    (reason : String) (actor : ActorType) (now : Time)
    (h : p.Validate env = Option.none) :
    (p.ChangeStatus evID dst reason actor now).1.Validate env = Option.none := by
  unfold Player.ChangeStatus
  split
  · exact h
  · split
    · exact h
    · split
      · exact h
      · rename_i hne _ _
        rw [player_validate_none_iff] at h ⊢
        exact ⟨h.1, h.2.1, hne, h.2.2.2⟩

/-- The player after `MarkLogin` satisfies `Validate` if the one before did. -/
theorem markLogin_valid (env : Env) (p : Player) (loginAt : Time)
    (h : p.Validate env = Option.none) : (p.MarkLogin loginAt).Validate env = Option.none := by
  rw [player_validate_none_iff] at h ⊢
  exact h

/-- C15. No transition graph is enforced: for every player, whatever its status (active,
blocked, frozen and closed among them), and every target among active, blocked, frozen and
closed, the aggregate's `ChangeStatus` succeeds exactly when the target differs from the
current status and the reason is not empty or white space only, whatever the actor; a
closed player with reason `"appeal"` is moved to active. -/
theorem C15_no_transition_graph (p : Player) (evID : UUID) (dst : Status) (reason : String)
    (actor : ActorType) (now : Time)
    (hdst : dst = StatusActive ∨ dst = StatusBlocked ∨ dst = StatusFrozen
      ∨ dst = StatusClosed) :
    ((∃ q ev, p.ChangeStatus evID dst reason actor now = (q, .ok ev)) ↔
        (dst ≠ p.Status ∧ ¬ ∀ c ∈ reason.data, isSpace c = true))
    ∧ (p.Status = StatusClosed →
        ∃ q ev, p.ChangeStatus evID StatusActive "appeal" actor now = (q, .ok ev)
          ∧ q.Status = StatusActive) := by
  have hne : dst ≠ StatusUnknown := by
    rcases hdst with h | h | h | h <;> subst h <;> decide
  refine ⟨⟨?_, ?_⟩, ?_⟩
  · rintro ⟨q, ev, h⟩
    obtain ⟨_, _, _, h2, h3⟩ := changeStatus_ok p q evID dst reason actor now ev h
    exact ⟨h2, fun hb => h3 ((trimSpace_eq_empty_iff reason).mpr hb)⟩
  · rintro ⟨h2, h3⟩
    exact ⟨_, _, changeStatus_of_guards p evID dst reason actor now hne h2
      (fun hb => h3 ((trimSpace_eq_empty_iff reason).mp hb))⟩
  · intro hc
    have hg := changeStatus_of_guards p evID StatusActive "appeal" actor now (by decide)
      (by rw [hc]; decide) (by decide)
    exact ⟨_, _, hg, rfl⟩

/-- C15, at concrete inputs: the sample player, blocked at version 2, is moved back to
active by the player itself, and a blank reason is refused. -/
theorem C15_no_transition_graph_witness :
    (∃ q ev, blockedPlayer.ChangeStatus ⟨12⟩ StatusActive "cleared" ActorPlayer 300 = (q, .ok ev))
    ∧ ¬ (∃ q ev, blockedPlayer.ChangeStatus ⟨12⟩ StatusActive "  " ActorPlayer 300
          = (q, .ok ev)) :=
  ⟨(C15_no_transition_graph blockedPlayer ⟨12⟩ StatusActive "cleared" ActorPlayer 300
      (by decide)).1.mpr ⟨by decide, by decide⟩,
    fun h => ((C15_no_transition_graph blockedPlayer ⟨12⟩ StatusActive "  " ActorPlayer 300
      (by decide)).1.mp h).2 (by decide)⟩

/-! ## `UnitOfWork.WithinTx` -/

/-- C12. For every operation handed to `WithinTx`: when `BeginTx` fails, that error is
returned and the world only records the `BeginTx` call, whatever the operation is (it is
never invoked); when the operation fails, the result is exactly its error, whatever
`Rollback` reports, the call record ends with `Rollback` and no `Commit`, the pending
state is dropped and the committed tables are those the operation left; when the
operation succeeds, `Commit` is called once, last, and its result is the result. -/
theorem C12_withinTx {α : Type} (f : Faults) (fn : Ctx → World → Except Err α × World)
    (w : World) :
    (∀ e, f.beginTx = some e →
        UnitOfWork.WithinTx f fn w = (.error (.storage e), w.note .BeginTx)
        ∧ ∀ fn2 : Ctx → World → Except Err α × World,
            UnitOfWork.WithinTx f fn2 w = UnitOfWork.WithinTx f fn w)
    ∧ (f.beginTx = Option.none → ∀ err w2,
        fn .withTx { committed := w.committed, pending := some w.committed,
                     calls := w.calls ++ [.BeginTx] } = (.error err, w2) →
        UnitOfWork.WithinTx f fn w
          = (.error err, { committed := w2.committed, pending := Option.none,
                           calls := w2.calls ++ [.Rollback] }))
    ∧ (f.beginTx = Option.none → ∀ a w2,
        fn .withTx { committed := w.committed, pending := some w.committed,
                     calls := w.calls ++ [.BeginTx] } = (.ok a, w2) →
        UnitOfWork.WithinTx f fn w
          = ((match (Commit f w2).1 with
              | some e => .error e
              | Option.none => .ok a), (Commit f w2).2)
        ∧ (Commit f w2).2.calls = w2.calls ++ [.Commit]
        ∧ (∀ e, f.commit = some e → (Commit f w2).1 = some (.storage e))
        ∧ (∀ d, f.commit = Option.none → w2.pending = some d →
            UnitOfWork.WithinTx f fn w
              = (.ok a, { committed := d, pending := Option.none,
                          calls := w2.calls ++ [.Commit] }))) := by
  refine ⟨?_, ?_, ?_⟩
  · intro e he
    have hb : ∀ fn2 : Ctx → World → Except Err α × World,
        UnitOfWork.WithinTx f fn2 w = (.error (.storage e), w.note .BeginTx) := by
      intro fn2
      unfold UnitOfWork.WithinTx BeginTx
      simp only [he]
    exact ⟨hb fn, fun fn2 => (hb fn2).trans (hb fn).symm⟩
  · intro hb err w2 hfn
    unfold UnitOfWork.WithinTx BeginTx
    simp only [hb, World.note, hfn, Rollback]
  · intro hb a w2 hfn
    refine ⟨?_, ?_, ?_, ?_⟩
    · unfold UnitOfWork.WithinTx BeginTx
      simp only [hb, World.note, hfn]
      rcases hc : Commit f w2 with ⟨r, w3⟩
      cases r <;> rfl
    · unfold Commit
      cases f.commit with
      | some e => rfl
      | none =>
        dsimp only
        cases hp : (w2.note .Commit).pending <;> rfl
    · intro e he
      unfold Commit
      simp only [he]
    · intro d hc hp
      unfold UnitOfWork.WithinTx BeginTx Commit
      simp only [hb, World.note, hfn, hc, hp]

/-- C12, at concrete inputs. With `BeginTx` refused nothing but that call is recorded;
an operation that stages an event and then fails with `ErrForbidden` gets exactly that
error back although `Rollback` itself fails, its event is not committed, and the record
shows `Rollback` and no `Commit`. -/
theorem C12_withinTx_witness :
    UnitOfWork.WithinTx beginRefused stageThenFail sampleWorld
      = (.error (.storage ⟨"08006"⟩), sampleWorld.note .BeginTx)
    ∧ UnitOfWork.WithinTx rollbackRefused stageThenFail sampleWorld
      = (.error (.sentinel ErrForbidden),
          { committed := sampleDB, pending := Option.none,
            calls := [.BeginTx, .Append ⟨9⟩, .Rollback] }) :=
  ⟨((C12_withinTx beginRefused stageThenFail sampleWorld).1 ⟨"08006"⟩ rfl).1,
    (C12_withinTx rollbackRefused stageThenFail sampleWorld).2.1 rfl
      (.sentinel ErrForbidden) (stageThenFail .withTx
        { committed := sampleDB, pending := some sampleDB, calls := [.BeginTx] }).2 rfl⟩

/-! ## The calls `Service.ChangeStatus` makes -/

/-- The repository calls of a successful run of the function handed over by
`Service.ChangeStatus`, in order, and the ids they carry. -/
theorem changeStatusTx_calls (env : Env) (s : Service) (f : Faults) (now : Time)
    (evID msgID : UUID) (dst : Status) (cmd : ChangeStatusCmd) (w w1 : World) (p : Player)
    (ev : PlayerStatusEvent)
    (h : Service.changeStatusTx env s f now evID msgID dst cmd .withTx w = (.ok (p, ev), w1)) :
    p.ID = cmd.PlayerID ∧ ev.ID = evID
    ∧ w1.calls = w.calls ++ ([.GetByID cmd.PlayerID, .Update cmd.PlayerID, .Append evID]
        ++ if s.outbox then [.Enqueue msgID] else []) := by
  unfold Service.changeStatusTx at h
  rcases Repo.GetByID_tx env f cmd.PlayerID w with ⟨e, hg⟩ | ⟨d0, r0, hp, hfind, hg⟩
  · rw [hg] at h; simp at h
  rw [hg] at h; dsimp only at h
  have hid : r0.id = cmd.PlayerID := by
    have := List.find?_some hfind
    simpa using this
  rcases hc : (rowToPlayer env r0).ChangeStatus evID dst cmd.Reason cmd.Actor now with ⟨q, rc⟩
  rw [hc] at h
  cases rc with
  | error e => simp at h
  | ok ev0 =>
    dsimp only at h
    obtain ⟨hq, hev, _, _, _⟩ := changeStatus_ok _ _ _ _ _ _ _ _ hc
    have hqid : q.ID = cmd.PlayerID := by rw [hq]; exact hid
    have hevid : ev0.ID = evID := by rw [hev]
    rcases Repo.Update_tx env f q (w.note (.GetByID cmd.PlayerID)) with
      ⟨e, w2, hu, _⟩ | ⟨d1, _, _, hu⟩
    · rw [hu] at h; simp at h
    rw [hu] at h; dsimp only at h
    rcases EventsRepo.Append_tx f ev0
        { committed := (w.note (.GetByID cmd.PlayerID)).committed,
          pending := some { d1 with players := updateRows env q d1.players },
          calls := (w.note (.GetByID cmd.PlayerID)).calls ++ [.Update q.ID] } with
      ⟨e, w3, ha, _⟩ | ⟨d2, _, ha⟩
    · rw [ha] at h; simp at h
    rw [ha] at h; dsimp only at h
    cases hob : s.outbox with
    | false =>
      simp only [hob, Bool.false_eq_true, if_false, Prod.mk.injEq, Except.ok.injEq] at h
      obtain ⟨⟨hp1, hev1⟩, hw⟩ := h
      subst hp1 hev1 hw
      refine ⟨hqid, hevid, ?_⟩
      simp [World.note, hqid, hevid]
    | true =>
      simp only [hob, if_true] at h
      unfold NewOutboxMessage at h
      cases hm : f.marshal with
      | some e => rw [hm] at h; simp at h
      | none =>
        rw [hm] at h
        dsimp only at h
        rcases OutboxRepo.Enqueue_tx f
            { ID := msgID, Aggregate := "player", AggregateID := q.ID,
              Typ := "player.status.changed", Key := q.ID.String,
              Payload := env.jsonObject (statusPayload env ev0), CreatedAt := now }
            { committed := (w.note (.GetByID cmd.PlayerID)).committed,
              pending := some { players := d2.players,
                                events := d2.events ++ [eventToRow ev0], outbox := d2.outbox },
              calls := (w.note (.GetByID cmd.PlayerID)).calls ++ [.Update q.ID]
                ++ [.Append ev0.ID] } with
          ⟨e, w4, he, _⟩ | ⟨d3, _, he⟩
        · rw [he] at h; simp at h
        rw [he] at h
        simp only [Prod.mk.injEq, Except.ok.injEq] at h
        obtain ⟨⟨hp1, hev1⟩, hw⟩ := h
        subst hp1 hev1 hw
        refine ⟨hqid, hevid, ?_⟩
        simp [World.note, hqid, hevid]

/-- The collaborator calls of a successful `Service.ChangeStatus`, in order. -/
theorem changeStatus_calls (env : Env) (s : Service) (f : Faults) (now : Time)
    (evID msgID : UUID) (cmd : ChangeStatusCmd) (w w1 : World) (p : Player)
    (ev : PlayerStatusEvent)
    (h : Service.ChangeStatus env s f now evID msgID cmd w = (.ok (p, ev), w1)) :
    p.ID = cmd.PlayerID ∧ ev.ID = evID
    ∧ w1.calls = w.calls ++ ([.BeginTx, .GetByID cmd.PlayerID, .Update cmd.PlayerID,
        .Append evID] ++ (if s.outbox then [.Enqueue msgID] else []) ++ [.Commit]) := by
  unfold Service.ChangeStatus at h
  rcases hparse : ParseStatus (ToLower env (TrimSpace cmd.ToStatus)) with ⟨dst, perr⟩
  rw [hparse] at h
  cases perr with
  | some e => simp at h
  | none =>
    dsimp only at h
    unfold UnitOfWork.WithinTx at h
    rcases beginTx_cases f w with ⟨e, hb⟩ | ⟨_, hb⟩
    · rw [hb] at h; simp at h
    rw [hb] at h; dsimp only at h
    rcases htx : Service.changeStatusTx env s f now evID msgID dst cmd .withTx
      { committed := w.committed, pending := some w.committed,
        calls := w.calls ++ [.BeginTx] } with ⟨r, w2⟩
    rw [htx] at h
    cases r with
    | error e => simp at h
    | ok pe =>
      obtain ⟨p0, ev0⟩ := pe
      dsimp only at h
      obtain ⟨hid, hevid, hcalls⟩ := changeStatusTx_calls env s f now evID msgID dst cmd _ w2
        p0 ev0 htx
      have spec := changeStatusTx_spec env s f now evID msgID dst cmd
        { committed := w.committed, pending := some w.committed,
          calls := w.calls ++ [.BeginTx] }
      rw [htx] at spec
      obtain ⟨_, d0, _, _, _, _, _, hpend⟩ := spec
      rcases commit_cases f w2 _ hpend with ⟨e, w3, hc, _⟩ | ⟨_, hc⟩
      · rw [hc] at h; simp at h
      · rw [hc] at h
        simp only [Prod.mk.injEq, Except.ok.injEq] at h
        obtain ⟨⟨hp1, hev1⟩, hw⟩ := h
        subst hp1 hev1 hw
        refine ⟨hid, hevid, ?_⟩
        dsimp only
        rw [hcalls]
        simp

/-- C11. Whenever `Service.ChangeStatus` succeeds with an outbox configured, the committed
outbox has gained exactly one row, with aggregate `"player"`, aggregate id the player's id,
type `"player.status.changed"`, key the textual form of the player's id, `created_at` the
instant of the clock and `published_at` null; and `Enqueue` has been called exactly once,
between the event append and the commit. -/
theorem C11_outbox_message (env : Env) (s : Service) (f : Faults) (now : Time)
    (evID msgID : UUID) (cmd : ChangeStatusCmd) (w w1 : World) (p : Player)
    (ev : PlayerStatusEvent) (hob : s.outbox = true)
    (h : Service.ChangeStatus env s f now evID msgID cmd w = (.ok (p, ev), w1)) :
    p.ID = cmd.PlayerID
    ∧ w1.committed.outbox = w.committed.outbox ++
        [{ id := msgID, aggregate := "player", aggregate_id := p.ID,
           type := "player.status.changed", key := p.ID.String,
           payload := env.jsonObject (statusPayload env ev), created_at := now,
           published_at := Option.none }]
    ∧ w1.calls = w.calls ++ [.BeginTx, .GetByID cmd.PlayerID, .Update cmd.PlayerID,
        .Append evID, .Enqueue msgID, .Commit] := by
  obtain ⟨hid, _, hcalls⟩ := changeStatus_calls env s f now evID msgID cmd w w1 p ev h
  have post := changeStatus_post env s f now evID msgID cmd w
  rw [h] at post
  obtain ⟨hcomm, _, _⟩ := post
  refine ⟨hid, ?_, ?_⟩
  · rw [hcomm]
    simp only [hob, if_true]
    rfl
  · rw [hcalls]
    simp [hob]

/-- C11, at concrete inputs: blocking the sample player (id 7) at instant 200 stages one
message keyed by the id in its textual form. -/
theorem C11_outbox_message_witness :
    (Service.ChangeStatus Env.sample ⟨true⟩ Faults.none 200 ⟨9⟩ ⟨11⟩ sampleCmd
        sampleWorld).2.committed.outbox.map
      (fun r => (r.id, r.aggregate, r.aggregate_id, r.type, r.key, r.created_at))
    = [(⟨11⟩, "player", ⟨7⟩, "player.status.changed",
        "00000000-0000-0000-0000-000000000007", 200)] := by
  have h := (C11_outbox_message Env.sample ⟨true⟩ Faults.none 200 ⟨9⟩ ⟨11⟩ sampleCmd sampleWorld
    (Service.ChangeStatus Env.sample ⟨true⟩ Faults.none 200 ⟨9⟩ ⟨11⟩ sampleCmd sampleWorld).2
    blockedPlayer
    { ID := ⟨9⟩, PlayerID := ⟨7⟩, From := StatusActive, To := StatusBlocked,
      Reason := "fraud", ActorType := ActorAdmin, CreatedAt := 200 } rfl rfl).2.1
  rw [h]
  rfl

/-- C13, as stated, fails: a call refused by the aggregate because the target is the current
status, and one refused for its blank reason, have both invoked the player store's `GetByID`
(inside a transaction that was begun and is then rolled back) when the error is returned. -/
theorem C13_counterexample :
    Service.ChangeStatus Env.sample ⟨true⟩ Faults.none 200 ⟨9⟩ ⟨11⟩ sameStatusCmd sampleWorld
      = (.error (.wrap ErrValidation "status already active"),
          { committed := sampleDB, pending := Option.none,
            calls := [.BeginTx, .GetByID ⟨7⟩, .Rollback] })
    ∧ Service.ChangeStatus Env.sample ⟨true⟩ Faults.none 200 ⟨9⟩ ⟨11⟩ blankReasonCmd sampleWorld
      = (.error (.wrap ErrValidation "status_reason required"),
          { committed := sampleDB, pending := Option.none,
            calls := [.BeginTx, .GetByID ⟨7⟩, .Rollback] }) :=
  ⟨rfl, rfl⟩

/-- C13, amended. When the aggregate's `ChangeStatus` refuses the player that was loaded
(target equal to the current status, or blank reason), `Service.ChangeStatus` returns that
error, which is `ErrValidation`; the calls made by then are `BeginTx`, the player store's
`GetByID` and `Rollback`, in that order and nothing else (no `Update`, `Append` or
`Enqueue`), and the committed tables are untouched. -/
theorem C13_rejected_before_any_write (env : Env) (s : Service) (f : Faults) (now : Time)
    (evID msgID : UUID) (cmd : ChangeStatusCmd) (w : World) (dst : Status) (r0 : PlayerRow)
    (e : Err)
    (hparse : ParseStatus (ToLower env (TrimSpace cmd.ToStatus)) = (dst, Option.none))
    (hbegin : f.beginTx = Option.none) (hsel : f.selectPlayer = Option.none)
    (hrow : w.committed.players.find? (fun r => r.id == cmd.PlayerID) = some r0)
    (hagg : ((rowToPlayer env r0).ChangeStatus evID dst cmd.Reason cmd.Actor now).2
      = .error e) :
    Service.ChangeStatus env s f now evID msgID cmd w
      = (.error e, { committed := w.committed, pending := Option.none,
                     calls := w.calls ++ [.BeginTx, .GetByID cmd.PlayerID, .Rollback] })
    ∧ e.Is ErrValidation = true
    ∧ (dst = ⟨r0.status⟩ ∨ ∀ c ∈ cmd.Reason.data, isSpace c = true) := by
  have hdst := parseStatus_ok _ _ hparse
  have hne : dst ≠ StatusUnknown := by
    rcases hdst with h | h | h | h <;> subst h <;> decide
  have hkind : e.Is ErrValidation = true
      ∧ (dst = ⟨r0.status⟩ ∨ ∀ c ∈ cmd.Reason.data, isSpace c = true) := by
    unfold Player.ChangeStatus at hagg
    rw [if_neg hne] at hagg
    split at hagg
    · rename_i hs
      simp only [Except.error.injEq] at hagg
      rw [← hagg]
      exact ⟨rfl, Or.inl hs⟩
    · split at hagg
      · rename_i hb
        simp only [Except.error.injEq] at hagg
        rw [← hagg]
        exact ⟨rfl, Or.inr ((trimSpace_eq_empty_iff _).mp hb)⟩
      · simp at hagg
  refine ⟨?_, hkind.1, hkind.2⟩
  rcases hc : (rowToPlayer env r0).ChangeStatus evID dst cmd.Reason cmd.Actor now with ⟨q, rc⟩
  rw [hc] at hagg
  dsimp only at hagg
  subst hagg
  unfold Service.ChangeStatus
  rw [hparse]
  dsimp only
  unfold UnitOfWork.WithinTx BeginTx Service.changeStatusTx
  simp only [hbegin, World.note]
  rw [Repo.GetByID_found env f .withTx cmd.PlayerID
    { committed := w.committed, pending := some w.committed, calls := w.calls ++ [.BeginTx] }
    w.committed r0 hsel rfl hrow]
  simp [hc, Rollback, World.note]

/-- C13 amended, at concrete inputs: the sample player asked to become active again. -/
theorem C13_rejected_before_any_write_witness :
    Service.ChangeStatus Env.sample ⟨true⟩ Faults.none 200 ⟨9⟩ ⟨11⟩ sameStatusCmd sampleWorld
      = (.error (.wrap ErrValidation "status already active"),
          { committed := sampleDB, pending := Option.none,
            calls := [.BeginTx, .GetByID ⟨7⟩, .Rollback] }) :=
  (C13_rejected_before_any_write Env.sample ⟨true⟩ Faults.none 200 ⟨9⟩ ⟨11⟩ sameStatusCmd
    sampleWorld StatusActive (playerToRow Env.sample samplePlayer)
    (.wrap ErrValidation "status already active") rfl rfl rfl rfl rfl).1

/-! ## Validation in `Service.CreatePlayer` comes before the unit of work -/

theorem address_validate_kind (env : Env) (a : Address) (e : Err)
    (h : a.Validate env = some e) : validationKind e = true := by
  unfold Address.Validate at h
  split at h
  · simp only [Option.some.injEq] at h; rw [← h]; rfl
  · split at h
    · simp only [Option.some.injEq] at h; rw [← h]; rfl
    · split at h
      · simp only [Option.some.injEq] at h; rw [← h]; rfl
      · simp at h

theorem player_validate_kind (env : Env) (p : Player) (e : Err)
    (h : p.Validate env = some e) : validationKind e = true := by
  unfold Player.Validate at h
  split at h
  · simp only [Option.some.injEq] at h; rw [← h]; rfl
  · split at h
    · simp only [Option.some.injEq] at h; rw [← h]; rfl
    · split at h
      · simp only [Option.some.injEq] at h; rw [← h]; rfl
      · split at h
        · rename_i e1 ha
          simp only [Option.some.injEq] at h
          rw [← h]
          exact address_validate_kind env _ _ ha
        · simp at h

theorem newPlayer_error_kind (env : Env) (id : UUID) (params : CreateParams) (now : Time)
    (e : Err) (h : NewPlayer env id params now = .error e) : validationKind e = true := by
  unfold NewPlayer at h
  simp only at h
  split at h
  · simp only [Except.error.injEq] at h; rw [← h]; rfl
  · split at h
    · simp only [Except.error.injEq] at h; rw [← h]; rfl
    · split at h
      · rename_i e1 ha
        simp only [Except.error.injEq] at h
        rw [← h]
        exact address_validate_kind env _ _ ha
      · split at h
        · rename_i e1 hv
          simp only [Except.error.injEq] at h
          rw [← h]
          exact player_validate_kind env _ _ hv
        · simp at h

/-- The checks a successful `NewPlayer` has passed on email and phone. -/
theorem newPlayer_ok_checks (env : Env) (id : UUID) (params : CreateParams) (now : Time)
    (pl : Player) (h : NewPlayer env id params now = .ok pl) :
    ¬ (TrimSpace (ToLower env params.Email) = ""
        ∨ ¬ reEmail.MatchString (TrimSpace (ToLower env params.Email)) = true)
    ∧ ¬ (params.Phone ≠ "" ∧ ¬ rePhone.MatchString params.Phone = true)
    ∧ params.Address.Validate env = Option.none := by
  unfold NewPlayer at h
  simp only at h
  split at h
  · simp at h
  · rename_i h1
    split at h
    · simp at h
    · rename_i h2
      split at h
      · simp at h
      · rename_i h3
        exact ⟨h1, h2, h3⟩

theorem parseGender_ok_iff (v : String) :
    (ParseGender v).2 = Option.none ↔ v ∈ GenderList := by
  unfold ParseGender GenderList
  by_cases h1 : v = "none"
  · simp [h1]
  · by_cases h2 : v = "male"
    · simp [h2]
    · by_cases h3 : v = "female"
      · simp [h3]
      · by_cases h4 : v = "other"
        · simp [h4]
        · simp [h1, h2, h3, h4]

theorem parseGender_error_kind (v : String) (g : Gender) (e : Err)
    (h : ParseGender v = (g, some e)) : validationKind e = true := by
  unfold ParseGender at h
  split at h
  · simp at h
  · split at h
    · simp at h
    · split at h
      · simp at h
      · split at h
        · simp at h
        · simp only [Prod.mk.injEq, Option.some.injEq] at h
          rw [← h.2]
          rfl

theorem buildPlayer_error_kind (env : Env) (now : Time) (id : UUID) (cmd : CreatePlayerCmd)
    (e : Err) (h : Service.buildPlayer env now id cmd = .error e) : validationKind e = true := by
  unfold Service.buildPlayer NewAddress at h
  dsimp only at h
  split at h
  · rename_i e1 ha
    simp only [Except.error.injEq] at h
    split at ha
    · rename_i e2 hv
      simp only [Except.error.injEq] at ha
      rw [← h, ← ha]
      exact address_validate_kind env _ _ hv
    · simp at ha
  · split at h
    · rename_i g e1 hg
      simp only [Except.error.injEq] at h
      rw [← h]
      exact parseGender_error_kind _ _ _ hg
    · split at h
      · rename_i e1 hip
        simp only [Except.error.injEq] at h
        rw [← h]
        split at hip
        · split at hip
          · simp only [Except.error.injEq] at hip
            rw [← hip]
            rfl
          · simp at hip
        · simp at hip
      · exact newPlayer_error_kind env _ _ _ _ h

/-- The checks a command has passed when `Service.buildPlayer` succeeds. -/
theorem buildPlayer_ok_checks (env : Env) (now : Time) (id : UUID) (cmd : CreatePlayerCmd)
    (p : Player) (h : Service.buildPlayer env now id cmd = .ok p) :
    (ToUpper env cmd.CountryCode = "" ∨ reCountry.MatchString (ToUpper env cmd.CountryCode) = true)
    ∧ (cmd.Locale = "" ∨ reLocale.MatchString cmd.Locale = true)
    ∧ (cmd.TimeZone = "" ∨ env.loadLocation cmd.TimeZone = true)
    ∧ ToLower env (TrimSpace cmd.Gender) ∈ GenderList
    ∧ (TrimSpace cmd.RegistrationIP = "" ∨ env.parseIP (TrimSpace cmd.RegistrationIP) ≠ [])
    ∧ (TrimSpace (ToLower env cmd.Email) ≠ ""
        ∧ reEmail.MatchString (TrimSpace (ToLower env cmd.Email)) = true)
    ∧ (cmd.Phone = "" ∨ rePhone.MatchString cmd.Phone = true) := by
  unfold Service.buildPlayer NewAddress at h
  dsimp only at h
  split at h
  · simp at h
  · rename_i addr ha
    have hav : (Address.mk (ToUpper env cmd.CountryCode) cmd.Locale cmd.TimeZone).Validate env
        = Option.none := by
      split at ha
      · simp at ha
      · assumption
    have haddr := (address_validate_none_iff env _).mp hav
    split at h
    · simp at h
    · rename_i g hg
      have hgl : ToLower env (TrimSpace cmd.Gender) ∈ GenderList := by
        rw [← parseGender_ok_iff, hg]
      split at h
      · simp at h
      · rename_i ip hip
        have hipv : TrimSpace cmd.RegistrationIP = ""
            ∨ env.parseIP (TrimSpace cmd.RegistrationIP) ≠ [] := by
          by_cases hb : TrimSpace cmd.RegistrationIP = ""
          · exact Or.inl hb
          · right
            intro hnil
            rw [if_pos hb] at hip
            simp [hnil] at hip
        obtain ⟨h1, h2, _⟩ := newPlayer_ok_checks env _ _ _ _ h
        dsimp only at h1 h2
        refine ⟨haddr.1, haddr.2.1, haddr.2.2, hgl, hipv, ⟨fun he => h1 (Or.inl he),
          by_contra fun hm => h1 (Or.inr hm)⟩, ?_⟩
        by_cases hp : cmd.Phone = ""
        · exact Or.inl hp
        · exact Or.inr (by_contra fun hm => h2 ⟨hp, hm⟩)

/-- C14. When the command's country code (upper-cased), locale, time zone, gender (trimmed
and lower-cased), non-blank registration IP, email (lower-cased and trimmed) or phone is
invalid, `Service.CreatePlayer` fails with an error that is `ErrValidation` or one of the
`ErrInvalid...` values, and the world it hands back is the one it was given: no call to the
unit of work or to a repository is recorded and the tables are untouched. -/
theorem C14_createPlayer_validation_first (env : Env) (s : Service) (f : Faults) (now : Time)
    (id : UUID) (cmd : CreatePlayerCmd) (w : World)
    (hinv : (ToUpper env cmd.CountryCode ≠ ""
          ∧ reCountry.MatchString (ToUpper env cmd.CountryCode) = false)
      ∨ (cmd.Locale ≠ "" ∧ reLocale.MatchString cmd.Locale = false)
      ∨ (cmd.TimeZone ≠ "" ∧ env.loadLocation cmd.TimeZone = false)
      ∨ ToLower env (TrimSpace cmd.Gender) ∉ GenderList
      ∨ (TrimSpace cmd.RegistrationIP ≠ "" ∧ env.parseIP (TrimSpace cmd.RegistrationIP) = [])
      ∨ (TrimSpace (ToLower env cmd.Email) = ""
          ∨ reEmail.MatchString (TrimSpace (ToLower env cmd.Email)) = false)
      ∨ (cmd.Phone ≠ "" ∧ rePhone.MatchString cmd.Phone = false)) :
    ∃ e, Service.CreatePlayer env s f now id cmd w = (.error e, w)
      ∧ validationKind e = true := by
  cases hb : Service.buildPlayer env now id cmd with
  | error e =>
    refine ⟨e, ?_, buildPlayer_error_kind env now id cmd e hb⟩
    unfold Service.CreatePlayer
    rw [hb]
  | ok p =>
    exfalso
    obtain ⟨c1, c2, c3, c4, c5, c6, c7⟩ := buildPlayer_ok_checks env now id cmd p hb
    rcases hinv with h | h | h | h | h | h | h
    · rcases c1 with c | c
      · exact h.1 c
      · rw [h.2] at c; cases c
    · rcases c2 with c | c
      · exact h.1 c
      · rw [h.2] at c; cases c
    · rcases c3 with c | c
      · exact h.1 c
      · rw [h.2] at c; cases c
    · exact h c4
    · rcases c5 with c | c
      · exact h.1 c
      · exact c h.2
    · rcases h with h | h
      · exact c6.1 h
      · rw [h] at c6; cases c6.2
    · rcases c7 with c | c
      · exact h.1 c
      · rw [h.2] at c; cases c

/-- C14, at a concrete input: the gender `"unknown"` is refused with `ErrInvalidGender` and
the world is handed back as it was, with no call recorded. -/
theorem C14_createPlayer_validation_first_witness :
    ∃ e, Service.CreatePlayer Env.sample ⟨true⟩ Faults.none 100 ⟨8⟩ badGenderCreate sampleWorld
        = (.error e, sampleWorld)
      ∧ validationKind e = true :=
  C14_createPlayer_validation_first Env.sample ⟨true⟩ Faults.none 100 ⟨8⟩ badGenderCreate
    sampleWorld (Or.inr (Or.inr (Or.inr (Or.inl (by decide)))))

/-! ## No row is written with status unknown -/

theorem pendingKnown_of_eq (w w1 : World) (h : w1.pending = w.pending) : PendingKnown w w1 := by
  intro d1 hd
  exact ⟨d1, h ▸ hd, fun r hr => Or.inl hr⟩

theorem pendingKnown_trans (w w1 w2 : World) (h1 : PendingKnown w w1) (h2 : PendingKnown w1 w2) :
    PendingKnown w w2 := by
  intro d2 hd2
  obtain ⟨d1, hd1, hr1⟩ := h2 d2 hd2
  obtain ⟨d0, hd0, hr0⟩ := h1 d1 hd1
  refine ⟨d0, hd0, fun r hr => ?_⟩
  rcases hr1 r hr with h | h
  · exact hr0 r h
  · exact Or.inr h

theorem updateRows_mem (env : Env) (p : Player) (rows : List PlayerRow) (r : PlayerRow)
    (h : r ∈ updateRows env p rows) : r ∈ rows ∨ r.status = p.Status.code := by
  unfold updateRows at h
  rw [List.mem_map] at h
  obtain ⟨r0, hr0, he⟩ := h
  by_cases hm : updateMatches p r0 = true
  · rw [if_pos hm] at he
    right
    rw [← he]
    rfl
  · rw [if_neg hm] at he
    left
    rw [← he]
    exact hr0

theorem Repo.Update_pendingKnown (env : Env) (f : Faults) (p : Player) (w : World)
    (hs : p.Status ≠ StatusUnknown) :
    PendingKnown w (Repo.Update env f .withTx p w).2 := by
  have hcode : p.Status.code ≠ StatusUnknown.code := fun h => hs (by
    cases hp : p.Status
    rw [hp] at h
    simp only [StatusUnknown] at h ⊢
    rw [h])
  unfold Repo.Update
  simp only [pickExecutor, TxFromContext, World.view, World.note, World.put, if_true]
  cases f.updatePlayer with
  | some e => exact pendingKnown_of_eq _ _ rfl
  | none =>
    cases hp : w.pending with
    | none =>
      dsimp only
      intro d1 hd
      simp [hp] at hd
    | some d =>
      dsimp only
      have key : ∀ d1, some ({ d with players := updateRows env p d.players } : DB) = some d1 →
          ∃ d0, w.pending = some d0
            ∧ ∀ r ∈ d1.players, r ∈ d0.players ∨ r.status ≠ StatusUnknown.code := by
        intro d1 hd
        cases Option.some.inj hd
        refine ⟨d, hp, fun r hr => ?_⟩
        rcases updateRows_mem env p d.players r hr with h | h
        · exact Or.inl h
        · exact Or.inr (h ▸ hcode)
      split
      · exact fun d1 hd => key d1 hd
      · exact fun d1 hd => key d1 hd

theorem Repo.Create_pendingKnown (env : Env) (f : Faults) (p : Player) (w : World)
    (hs : p.Status ≠ StatusUnknown) :
    PendingKnown w (Repo.Create env f .withTx p w).2 := by
  have hcode : p.Status.code ≠ StatusUnknown.code := fun h => hs (by
    cases hp : p.Status
    rw [hp] at h
    simp only [StatusUnknown] at h ⊢
    rw [h])
  rcases Repo.Create_tx env f p w with ⟨e, w1, hc, _⟩ | ⟨d, hp, hc⟩
  · unfold Repo.Create at hc ⊢
    simp only [pickExecutor, TxFromContext, World.view, World.note, World.put, if_true] at hc ⊢
    cases hf : f.insertPlayer with
    | some e1 => exact pendingKnown_of_eq _ _ rfl
    | none =>
      rw [hf] at hc
      cases hp : w.pending with
      | none =>
        dsimp only
        intro d1 hd
        simp [hp] at hd
      | some d =>
        rw [hp] at hc
        dsimp only at hc ⊢
        by_cases hu : violatesUnique (playerToRow env p) d.players = true
        · rw [if_pos hu]
          intro d1 hd
          exact ⟨d, hp, fun r hr => Or.inl (by
            have : d1 = d := (Option.some.inj hd).symm ▸ rfl
            rw [this] at hr
            exact hr)⟩
        · rw [if_neg hu] at hc
          simp at hc
  · rw [hc]
    intro d1 hd
    cases Option.some.inj hd
    refine ⟨d, hp, fun r hr => ?_⟩
    rcases List.mem_append.mp hr with h | h
    · exact Or.inl h
    · right
      rw [List.mem_singleton.mp h]
      exact hcode

theorem EventsRepo.Append_pendingKnown (f : Faults) (ev : PlayerStatusEvent) (w : World) :
    PendingKnown w (EventsRepo.Append f .withTx ev w).2 := by
  unfold EventsRepo.Append
  simp only [pickExecutor, TxFromContext, World.view, World.note, World.put, if_true]
  cases f.insertEvent with
  | some e => exact pendingKnown_of_eq _ _ rfl
  | none =>
    cases hp : w.pending with
    | none => exact pendingKnown_of_eq _ _ hp.symm
    | some d =>
      intro d1 hd
      cases Option.some.inj hd
      exact ⟨d, hp, fun r hr => Or.inl hr⟩

theorem OutboxRepo.Enqueue_pendingKnown (f : Faults) (m : OutboxMessage) (w : World) :
    PendingKnown w (OutboxRepo.Enqueue f .withTx m w).2 := by
  unfold OutboxRepo.Enqueue
  simp only [pickExecutor, TxFromContext, World.view, World.note, World.put, if_true]
  cases f.insertOutbox with
  | some e => exact pendingKnown_of_eq _ _ rfl
  | none =>
    cases hp : w.pending with
    | none => exact pendingKnown_of_eq _ _ hp.symm
    | some d =>
      intro d1 hd
      cases Option.some.inj hd
      exact ⟨d, hp, fun r hr => Or.inl hr⟩

theorem changeStatusTx_pendingKnown (env : Env) (s : Service) (f : Faults) (now : Time)
    (evID msgID : UUID) (dst : Status) (cmd : ChangeStatusCmd) (w : World) :
    PendingKnown w (Service.changeStatusTx env s f now evID msgID dst cmd .withTx w).2 := by
  unfold Service.changeStatusTx
  have hG := Repo.GetByID_world env f .withTx cmd.PlayerID w
  rcases hg : Repo.GetByID env f .withTx cmd.PlayerID w with ⟨r, w1⟩
  rw [hg] at hG
  dsimp only at hG
  have k1 : PendingKnown w w1 := pendingKnown_of_eq _ _ (by rw [hG]; rfl)
  cases r with
  | error e => exact k1
  | ok p0 =>
    dsimp only
    rcases hc : p0.ChangeStatus evID dst cmd.Reason cmd.Actor now with ⟨p, rc⟩
    cases rc with
    | error e => exact k1
    | ok ev =>
      dsimp only
      obtain ⟨hq, _, hne, _, _⟩ := changeStatus_ok _ _ _ _ _ _ _ _ hc
      have hps : p.Status ≠ StatusUnknown := by rw [hq]; exact hne
      have hU := Repo.Update_pendingKnown env f p w1 hps
      rcases hu : Repo.Update env f .withTx p w1 with ⟨ru, w2⟩
      rw [hu] at hU
      have k2 : PendingKnown w w2 := pendingKnown_trans _ _ _ k1 hU
      cases ru with
      | some e => exact k2
      | none =>
        dsimp only
        have hA := EventsRepo.Append_pendingKnown f ev w2
        rcases ha : EventsRepo.Append f .withTx ev w2 with ⟨ra, w3⟩
        rw [ha] at hA
        have k3 : PendingKnown w w3 := pendingKnown_trans _ _ _ k2 hA
        cases ra with
        | some e => exact k3
        | none =>
          dsimp only
          cases s.outbox with
          | false => exact k3
          | true =>
            simp only [if_true]
            rcases hm : NewOutboxMessage env f msgID "player" p.ID "player.status.changed"
                p.ID.String (statusPayload env ev) now with e | msg
            · exact k3
            · dsimp only
              have hE := OutboxRepo.Enqueue_pendingKnown f msg w3
              rcases he : OutboxRepo.Enqueue f .withTx msg w3 with ⟨re, w4⟩
              rw [he] at hE
              have k4 : PendingKnown w w4 := pendingKnown_trans _ _ _ k3 hE
              cases re with
              | some e => exact k4
              | none => exact k4

theorem createTx_pendingKnown (env : Env) (f : Faults) (p : Player) (w : World)
    (hs : p.Status ≠ StatusUnknown) :
    PendingKnown w (Service.createTx env f p .withTx w).2 := by
  unfold Service.createTx
  have hw := Repo.GetByEmail_world env f .withTx p.Email w
  rcases hg : Repo.GetByEmail env f .withTx p.Email w with ⟨r, w1⟩
  rw [hg] at hw
  dsimp only at hw
  have k1 : PendingKnown w w1 := pendingKnown_of_eq _ _ hw.2
  cases r with
  | ok q => exact k1
  | error e =>
    dsimp only
    split
    · exact k1
    · have hC := Repo.Create_pendingKnown env f p w1 hs
      rcases hc : Repo.Create env f .withTx p w1 with ⟨rc, w2⟩
      rw [hc] at hC
      have k2 : PendingKnown w w2 := pendingKnown_trans _ _ _ k1 hC
      cases rc with
      | some e1 => exact k2
      | none => exact k2

/-- The player built from a valid command is active. -/
theorem buildPlayer_status (env : Env) (now : Time) (id : UUID) (cmd : CreatePlayerCmd)
    (p : Player) (h : Service.buildPlayer env now id cmd = .ok p) :
    p.Status = StatusActive := by
  unfold Service.buildPlayer at h
  split at h
  · simp at h
  · split at h
    · simp at h
    · dsimp only at h
      split at h
      · simp at h
      · rw [newPlayer_ok _ _ _ _ _ h]

/-- A successful `Service.ChangeStatus` returns the player of a successful aggregate
`ChangeStatus` on the row committed under the id, for the status the command names. -/
theorem changeStatus_ok_inv (env : Env) (s : Service) (f : Faults) (now : Time)
    (evID msgID : UUID) (cmd : ChangeStatusCmd) (w w1 : World) (p : Player)
    (ev : PlayerStatusEvent)
    (h : Service.ChangeStatus env s f now evID msgID cmd w = (.ok (p, ev), w1)) :
    ∃ dst r0, ParseStatus (ToLower env (TrimSpace cmd.ToStatus)) = (dst, Option.none)
      ∧ w.committed.players.find? (fun r => r.id == cmd.PlayerID) = some r0
      ∧ (rowToPlayer env r0).ChangeStatus evID dst cmd.Reason cmd.Actor now = (p, .ok ev) := by
  unfold Service.ChangeStatus at h
  rcases hparse : ParseStatus (ToLower env (TrimSpace cmd.ToStatus)) with ⟨dst, perr⟩
  rw [hparse] at h
  cases perr with
  | some e => simp at h
  | none =>
    dsimp only at h
    unfold UnitOfWork.WithinTx at h
    rcases beginTx_cases f w with ⟨e, hb⟩ | ⟨_, hb⟩
    · rw [hb] at h; simp at h
    rw [hb] at h; dsimp only at h
    have spec := changeStatusTx_spec env s f now evID msgID dst cmd
      { committed := w.committed, pending := some w.committed,
        calls := w.calls ++ [.BeginTx] }
    rcases htx : Service.changeStatusTx env s f now evID msgID dst cmd .withTx
      { committed := w.committed, pending := some w.committed,
        calls := w.calls ++ [.BeginTx] } with ⟨r, w2⟩
    rw [htx] at h spec
    cases r with
    | error e => simp at h
    | ok pe =>
      obtain ⟨p0, ev0⟩ := pe
      obtain ⟨_, d0, r0, hp0, hfind, hcs, _, hpend⟩ := spec
      cases Option.some.inj hp0
      dsimp only at h
      rcases commit_cases f w2 _ hpend with ⟨e, w3, hc, _⟩ | ⟨_, hc⟩
      · rw [hc] at h; simp at h
      · rw [hc] at h
        simp only [Prod.mk.injEq, Except.ok.injEq] at h
        obtain ⟨⟨hp1, hev1⟩, _⟩ := h
        subst hp1 hev1
        exact ⟨dst, r0, rfl, hfind, hcs⟩

/-- Whatever `Service.CreatePlayer` does, every committed player row afterwards was there
before or has a status other than unknown. -/
theorem createPlayer_known (env : Env) (s : Service) (f : Faults) (now : Time) (id : UUID)
    (cmd : CreatePlayerCmd) (w : World) :
    ∀ r ∈ (Service.CreatePlayer env s f now id cmd w).2.committed.players,
      r ∈ w.committed.players ∨ r.status ≠ StatusUnknown.code := by
  have post := createPlayer_post env s f now id cmd w
  rcases hres : Service.CreatePlayer env s f now id cmd w with ⟨res, w1⟩
  rw [hres] at post
  cases res with
  | error e =>
    intro r hr
    have hc : w1.committed = w.committed := post
    exact Or.inl (hc ▸ hr)
  | ok p =>
    obtain ⟨hb, hc⟩ := post
    intro r hr
    dsimp only at hr
    rw [hc] at hr
    rcases List.mem_append.mp hr with h | h
    · exact Or.inl h
    · right
      rw [List.mem_singleton.mp h]
      show p.Status.code ≠ _
      rw [buildPlayer_status env now id cmd p hb]
      decide

/-- Whatever `Service.ChangeStatus` does, every committed player row afterwards was there
before or has a status other than unknown. -/
theorem changeStatus_known (env : Env) (s : Service) (f : Faults) (now : Time)
    (evID msgID : UUID) (cmd : ChangeStatusCmd) (w : World) :
    ∀ r ∈ (Service.ChangeStatus env s f now evID msgID cmd w).2.committed.players,
      r ∈ w.committed.players ∨ r.status ≠ StatusUnknown.code := by
  have post := changeStatus_post env s f now evID msgID cmd w
  rcases hres : Service.ChangeStatus env s f now evID msgID cmd w with ⟨res, w1⟩
  rw [hres] at post
  cases res with
  | error e =>
    intro r hr
    have hc : w1.committed = w.committed := post
    exact Or.inl (hc ▸ hr)
  | ok pe =>
    obtain ⟨p, ev⟩ := pe
    obtain ⟨hc, _, _⟩ := post
    obtain ⟨dst, r0, _, _, hcs⟩ := changeStatus_ok_inv env s f now evID msgID cmd w w1 p ev hres
    obtain ⟨hq, _, hne, _, _⟩ := changeStatus_ok _ _ _ _ _ _ _ _ hcs
    intro r hr
    dsimp only at hr
    rw [hc] at hr
    rcases updateRows_mem env p w.committed.players r hr with h | h
    · exact Or.inl h
    · right
      rw [h, hq]
      intro hcode
      apply hne
      cases dst
      simp only [StatusUnknown] at hcode ⊢
      rw [hcode]

/-- C16. `Validate` is `nil` exactly when the email is not empty and matches its pattern,
the phone is empty or matches its pattern, the status is not unknown and the address is
valid. It holds for every player `NewPlayer` returns, and if it holds before a call of
`ChangeStatus` (successful or not) or of `MarkLogin` it holds after. Whatever
`Service.CreatePlayer` and `Service.ChangeStatus` do, every player row committed
afterwards was there before or has a status other than unknown; the same is true of the
rows left pending by the functions they hand to the unit of work. -/
theorem C16_validity_invariant (env : Env) :
    (∀ p : Player, p.Validate env = Option.none ↔
        (p.Email ≠ "" ∧ reEmail.MatchString p.Email = true)
        ∧ (p.Phone = "" ∨ rePhone.MatchString p.Phone = true)
        ∧ p.Status ≠ StatusUnknown
        ∧ (p.Address.CountryCode = "" ∨ reCountry.MatchString p.Address.CountryCode = true)
        ∧ (p.Address.Locale = "" ∨ reLocale.MatchString p.Address.Locale = true)
        ∧ (p.Address.TimeZone = "" ∨ env.loadLocation p.Address.TimeZone = true))
    ∧ (∀ id params now pl, NewPlayer env id params now = .ok pl →
        pl.Validate env = Option.none)
    ∧ (∀ (p : Player) evID dst reason actor now, p.Validate env = Option.none →
        (p.ChangeStatus evID dst reason actor now).1.Validate env = Option.none)
    ∧ (∀ (p : Player) loginAt, p.Validate env = Option.none →
        (p.MarkLogin loginAt).Validate env = Option.none)
    ∧ (∀ s f now id cmd w,
        ∀ r ∈ (Service.CreatePlayer env s f now id cmd w).2.committed.players,
          r ∈ w.committed.players ∨ r.status ≠ StatusUnknown.code)
    ∧ (∀ s f now evID msgID cmd w,
        ∀ r ∈ (Service.ChangeStatus env s f now evID msgID cmd w).2.committed.players,
          r ∈ w.committed.players ∨ r.status ≠ StatusUnknown.code)
    ∧ (∀ f now id cmd p w, Service.buildPlayer env now id cmd = .ok p →
        PendingKnown w (Service.createTx env f p .withTx w).2)
    ∧ (∀ s f now evID msgID dst cmd w,
        PendingKnown w (Service.changeStatusTx env s f now evID msgID dst cmd .withTx w).2) := by
  refine ⟨?_, newPlayer_valid env, changeStatus_valid env, markLogin_valid env,
    createPlayer_known env, changeStatus_known env, ?_, changeStatusTx_pendingKnown env⟩
  · intro p
    rw [player_validate_none_iff, address_validate_none_iff]
  · intro f now id cmd p w hb
    apply createTx_pendingKnown
    rw [buildPlayer_status env now id cmd p hb]
    decide

/-- C16, at concrete inputs: the player created from `"A@B.com "` is valid, stays valid
when blocked and when a login is marked, and the row stored after blocking it has status
blocked. -/
theorem C16_validity_invariant_witness :
    samplePlayer.Validate Env.sample = Option.none
    ∧ blockedPlayer.Validate Env.sample = Option.none
    ∧ (blockedPlayer.MarkLogin 300).Validate Env.sample = Option.none
    ∧ ∀ r ∈ (Service.ChangeStatus Env.sample ⟨true⟩ Faults.none 200 ⟨9⟩ ⟨11⟩ sampleCmd
          sampleWorld).2.committed.players,
        r ∈ sampleWorld.committed.players ∨ r.status ≠ StatusUnknown.code :=
  have h := C16_validity_invariant Env.sample
  have h1 := h.2.1 ⟨7⟩ sampleParams 100 samplePlayer rfl
  have h2 := h.2.2.1 samplePlayer ⟨9⟩ StatusBlocked "fraud" ActorAdmin 200 h1
  ⟨h1, h2, h.2.2.2.1 blockedPlayer 300 h2,
    h.2.2.2.2.2.1 ⟨true⟩ Faults.none 200 ⟨9⟩ ⟨11⟩ sampleCmd sampleWorld⟩

end PlayerService
